import Mathlib

/-!
Verification of the AV1 OBU parser (`av1parser`): a shallow embedding of the
bit reader (`src/bitio.rs`), the reference-frame manager (`src/av1.rs`) and the
OBU syntax parsers (`src/obu.rs`), together with theorems settling the spec
claims about them.

Machine integers of the source (`u8`, `u16`, `u32`, `i32`, `i64`, `usize`) are
modeled as `Nat`/`Int`.  Where the source could overflow or underflow in a way
that matters, the modeling choice is recorded in a comment at the definition.
-/

set_option maxHeartbeats 1000000

namespace AV1

/--
Outcome of one parsing step.  The Rust source reports failure three ways:
`Option::None` / an `io::Error` when the byte or bit source is exhausted
(modeled as `.fail`), a failed `assert!`/`assert_eq!` (modeled as
`.panicked`), and an `unimplemented!()` path (modeled as `.unsupported`).
-/
inductive POut (α : Type) where
  | ok : α → POut α
  | fail : POut α
  | panicked : POut α
  | unsupported : POut α
  deriving Repr, DecidableEq

/--
Bit-level parser monad.  A `BitReader<R>` over a byte source serves single
bits MSB-first (`read_bit`), so the reader state is modeled as the list of
bits not yet consumed.
-/
def BitM (α : Type) : Type := List Bool → POut (α × List Bool)

/-- Sequencing of bit-level parsers (the `?` operator of the source). -/
def BitM.bind {α β : Type} (m : BitM α) (g : α → BitM β) : BitM β := fun bits =>
  match m bits with
  | .ok (a, rest) => g a rest
  | .fail => .fail
  | .panicked => .panicked
  | .unsupported => .unsupported

def BitM.pure {α : Type} (a : α) : BitM α := fun bits => .ok (a, bits)

/-- A failed `assert!` as a bit-level parser. -/
def BitM.panicked {α : Type} : BitM α := fun _ => .panicked

/-- An `unimplemented!()` path as a bit-level parser. -/
def BitM.unsupported {α : Type} : BitM α := fun _ => .unsupported

instance : Monad BitM where
  pure := BitM.pure
  bind := BitM.bind

namespace BitReader

/-- `BitReader::read_bit`: serve one bit, `None` (= `.fail`) at end of data. -/
def read_bit : BitM Nat := fun bits =>
  match bits with
  | [] => .fail
  | b :: rest => .ok ((if b then 1 else 0), rest)

/-- The accumulation loop of `f(n)`: `x = (x << 1) | read_bit()?`, `n` times. -/
def fGo : Nat → Nat → BitM Nat
  | 0, x => fun bits => .ok (x, bits)
  | n + 1, x => fun bits =>
    match bits with
    | [] => .fail
    | b :: rest => fGo n (2 * x + (if b then 1 else 0)) rest

/-- `BitReader::f(nbit)`: read `nbit` bits MSB-first; `assert!(nbit <= 32)`. -/
def f (n : Nat) : BitM Nat := fun bits =>
  if n ≤ 32 then fGo n 0 bits else .panicked

/-- Value of a bit string read MSB-first on top of accumulator `x`. -/
def bitsToNat (x : Nat) : List Bool → Nat
  | [] => x
  | b :: rest => bitsToNat (2 * x + (if b then 1 else 0)) rest

/--
`BitReader::su(n)`: read `n` bits, subtract `2^n` when the top bit is set.
The source computes `sign_mask = 1 << (n - 1)` on `usize`; with `n = 0` that
subtraction underflows and panics, and no call site uses `n = 0`.
-/
def su (n : Nat) : BitM Int :=
  if n = 0 then BitM.panicked else do
    let x ← f n
    let sign_mask : Nat := 1 <<< (n - 1)
    if x &&& sign_mask ≠ 0 then
      return (x : Int) - 2 * sign_mask
    else
      return (x : Int)

/--
`BitReader::floor_log2(x)` bit-count loop: `while x != 0 { x >>= 1; s += 1 }`.
-/
def floor_log2_go (x s : Nat) : Nat :=
  if x = 0 then s else floor_log2_go (x >>> 1) (s + 1)
  decreasing_by
    rename_i h
    simp only [Nat.shiftRight_eq_div_pow, pow_one]
    omega

/--
`BitReader::floor_log2(x)`: bit length minus one.  On `x = 0` the source's
`s - 1` underflows `u32` (a panic in debug builds); here `Nat` subtraction
truncates to `0`, and the parsers never call it with `x = 0`.
-/
def floor_log2 (x : Nat) : Nat := floor_log2_go x 0 - 1

/--
`BitReader::ns(n)`.  With `n = 0` the source panics inside `floor_log2`
(see above); that case is modeled as `.panicked` and never reached.
-/
def ns (n : Nat) : BitM Nat :=
  if n = 0 then BitM.panicked else
  let w := floor_log2 n + 1
  let m := (1 <<< w) - n
  do
    let v ← f (w - 1)
    if v < m then
      return v
    else
      let extra_bit ← f 1
      return ((v <<< 1) - m) + extra_bit

end BitReader

/--
`obu::leb128` reading loop (`for i in 0..8`), over a byte-level source
(`read_exact` on an exhausted source is an `io::Error`, modeled `.fail`).
`k` counts the iterations still allowed (`k = 8 - i`), making the `for`
bound structural.  Returns the accumulated value, the byte count
`Leb128Bytes`, and the rest of the source.
-/
def leb128Loop : Nat → Nat → Nat → Nat → List Nat → POut (Nat × Nat × List Nat)
  | 0, _, value, leb128bytes, bs => .ok (value, leb128bytes, bs)
  | k + 1, i, value, leb128bytes, bs =>
    match bs with
    | [] => .fail
    | leb128_byte :: rest =>
      let value' := value ||| ((leb128_byte &&& 0x7f) <<< (i * 7))
      if leb128_byte &&& 0x80 ≠ 0x80 then .ok (value', leb128bytes + 1, rest)
      else leb128Loop k (i + 1) value' (leb128bytes + 1) rest

/--
The trailing `assert!(value < (1u64 << 32))` of `obu::leb128`, applied to the
loop's outcome; on success the result is reordered to `(Leb128Bytes, value)`.
-/
def leb128Assert : POut (Nat × Nat × List Nat) → POut (Nat × Nat × List Nat)
  | .ok (value, leb128bytes, rest) =>
    if value < 2 ^ 32 then .ok (leb128bytes, value, rest) else .panicked
  | .fail => .fail
  | .panicked => .panicked
  | .unsupported => .unsupported

/-- `obu::leb128`: the 8-iteration loop followed by the 32-bit assert. -/
def leb128 (bs : List Nat) : POut (Nat × Nat × List Nat) :=
  leb128Assert (leb128Loop 8 0 0 0 bs)

/-! ## Constants of `src/obu.rs` and `src/av1.rs` -/

def NUM_REF_FRAMES : Nat := 8
def REFS_PER_FRAME : Nat := 7
def TOTAL_REFS_PER_FRAME : Nat := 8
def SELECT_SCREEN_CONTENT_TOOLS : Nat := 2
def SELECT_INTEGER_MV : Nat := 2
def PRIMARY_REF_NONE : Nat := 7
def SUPERRES_NUM : Nat := 8
def SUPERRES_DENOM_MIN : Nat := 9
def SUPERRS_DENOM_BITS : Nat := 3
def MAX_TILE_WIDTH : Nat := 4096
def MAX_TILE_AREA : Nat := 4096 * 2304
def MAX_TILE_ROWS : Nat := 64
def MAX_TILE_COLS : Nat := 64
def MAX_SEGMENTS : Nat := 8
def SEG_LVL_MAX : Nat := 8
def MAX_LOOP_FILTER : Int := 63
def RESTORATION_TILESIZE_MAX : Nat := 256
def WARPEDMODEL_PREC_BITS : Nat := 16
def GM_ABS_TRANS_BITS : Nat := 12
def GM_ABS_TRANS_ONLY_BITS : Nat := 9
def GM_ABS_ALPHA_BITS : Nat := 12
def GM_ALPHA_PREC_BITS : Nat := 15
def GM_TRANS_PREC_BITS : Nat := 6
def GM_TRANS_ONLY_PREC_BITS : Nat := 3

def KEY_FRAME : Nat := 0
def INTER_FRAME : Nat := 1
def INTRA_ONLY_FRAME : Nat := 2
def SWITCH_FRAME : Nat := 3

def SWITCHABLE : Nat := 4

def RESTORE_NONE : Nat := 0
def RESTORE_WIENER : Nat := 1
def RESTORE_SGRPROJ : Nat := 2
def RESTORE_SWITCHABLE : Nat := 3

def ONLY_4X4 : Nat := 0
def TX_MODE_LARGEST : Nat := 1
def TX_MODE_SELECT : Nat := 2

def IDENTITY : Nat := 0
def TRANSLATION : Nat := 1
def ROTZOOM : Nat := 2
def AFFINE : Nat := 3

def INTRA_FRAME : Nat := 0
def LAST_FRAME : Nat := 1
def LAST2_FRAME : Nat := 2
def LAST3_FRAME : Nat := 3
def GOLDEN_FRAME : Nat := 4
def BWDREF_FRAME : Nat := 5
def ALTREF2_FRAME : Nat := 6
def ALTREF_FRAME : Nat := 7

/-! ## Data model (the structs of `src/obu.rs`)

Fixed-size arrays `[T; N]` are modeled as total functions out of `Nat`; every
read and write the source performs is at an index below the array length, and
loop writes carry the loop's bound as an explicit guard.  Each field's default
value is the one `#[derive(Default)]` produces in Rust.
-/

structure ColorConfig where
  bit_depth : Nat := 0
  num_planes : Nat := 0
  mono_chrome : Bool := false
  color_primaries : Nat := 0
  transfer_characteristics : Nat := 0
  matrix_coefficients : Nat := 0
  color_range : Bool := false
  subsampling_x : Nat := 0
  subsampling_y : Nat := 0
  chroma_sample_position : Nat := 0
  separate_uv_delta_q : Bool := false
  deriving Repr, DecidableEq

structure TimingInfo where
  num_units_in_display_tick : Nat := 0
  time_scale : Nat := 0
  equal_picture_interval : Bool := false
  num_ticks_per_picture : Nat := 0
  deriving Repr, DecidableEq

structure OperatingPoint where
  operating_point_idc : Nat := 0
  seq_level_idx : Nat := 0
  seq_tier : Nat := 0
  deriving Repr, DecidableEq

structure SequenceHeader where
  seq_profile : Nat := 0
  still_picture : Bool := false
  reduced_still_picture_header : Bool := false
  timing_info_present_flag : Bool := false
  timing_info : TimingInfo := {}
  decoder_model_info_present_flag : Bool := false
  initial_display_delay_present_flag : Bool := false
  operating_points_cnt : Nat := 0
  op0 : OperatingPoint := {}
  frame_width_bits : Nat := 0
  frame_height_bits : Nat := 0
  max_frame_width : Nat := 0
  max_frame_height : Nat := 0
  frame_id_numbers_present_flag : Bool := false
  delta_frame_id_length : Nat := 0
  additional_frame_id_length : Nat := 0
  use_128x128_superblock : Bool := false
  enable_filter_intra : Bool := false
  enable_intra_edge_filter : Bool := false
  enable_interintra_compound : Bool := false
  enable_masked_compound : Bool := false
  enable_warped_motion : Bool := false
  enable_dual_filter : Bool := false
  enable_order_hint : Bool := false
  enable_jnt_comp : Bool := false
  enable_ref_frame_mvs : Bool := false
  seq_force_screen_content_tools : Nat := 0
  seq_force_integer_mv : Nat := 0
  order_hint_bits : Nat := 0
  enable_superres : Bool := false
  enable_cdef : Bool := false
  enable_restoration : Bool := false
  color_config : ColorConfig := {}
  film_grain_params_present : Bool := false
  deriving Repr, DecidableEq

structure FrameSize where
  frame_width : Nat := 0
  frame_height : Nat := 0
  use_superres : Bool := false
  upscaled_width : Nat := 0
  deriving Repr, DecidableEq

structure RenderSize where
  render_width : Nat := 0
  render_height : Nat := 0
  deriving Repr, DecidableEq

structure LoopFilterParams where
  loop_filter_level : Nat → Nat := fun _ => 0
  loop_filter_sharpness : Nat := 0
  loop_filter_delta_enabled : Bool := false
  loop_filter_ref_deltas : Nat → Int := fun _ => 0
  loop_filter_mode_deltas : Nat → Int := fun _ => 0

structure TileInfo where
  tile_cols : Nat := 0
  tile_rows : Nat := 0
  context_update_tile_id : Nat := 0
  tile_size_bytes : Nat := 0
  deriving Repr, DecidableEq

structure QuantizationParams where
  deltaq_y_dc : Int := 0
  deltaq_u_dc : Int := 0
  deltaq_u_ac : Int := 0
  deltaq_v_dc : Int := 0
  deltaq_v_ac : Int := 0
  base_q_idx : Nat := 0
  using_qmatrix : Bool := false
  qm_y : Nat := 0
  qm_u : Nat := 0
  qm_v : Nat := 0
  deriving Repr, DecidableEq

structure SegmentationParams where
  segmentation_enabled : Bool := false
  segmentation_update_map : Bool := false
  segmentation_temporal_update : Bool := false
  segmentation_update_data : Bool := false
  deriving Repr, DecidableEq

structure DeltaQParams where
  delta_q_present : Bool := false
  delta_q_res : Nat := 0
  deriving Repr, DecidableEq

structure DeltaLfParams where
  delta_lf_present : Bool := false
  delta_lf_res : Nat := 0
  delta_lf_multi : Bool := false
  deriving Repr, DecidableEq

structure CdefParams where
  cdef_damping : Nat := 0
  cdef_bits : Nat := 0
  cdef_y_pri_strength : Nat → Nat := fun _ => 0
  cdef_y_sec_strength : Nat → Nat := fun _ => 0
  cdef_uv_pri_strength : Nat → Nat := fun _ => 0
  cdef_uv_sec_strength : Nat → Nat := fun _ => 0

structure LrParams where
  uses_lr : Bool := false
  frame_restoration_type : Nat → Nat := fun _ => 0
  loop_restoration_size : Nat → Nat := fun _ => 0

structure SkipModeParams where
  skip_mode_frame : Nat → Nat := fun _ => 0
  skip_mode_present : Bool := false

structure GlobalMotionParams where
  gm_type : Nat → Nat := fun _ => 0
  gm_params : Nat → Nat → Int := fun _ _ => 0
  prev_gm_params : Nat → Nat → Int := fun _ _ => 0

structure FilmGrainParams where
  apply_grain : Bool := false
  grain_seed : Nat := 0
  update_grain : Bool := false
  film_grain_params_ref_idx : Nat := 0
  num_y_points : Nat := 0
  point_y_value : List Nat := []
  point_y_scaling : List Nat := []
  chroma_scaling_from_luma : Bool := false
  num_cb_points : Nat := 0
  point_cb_value : List Nat := []
  point_cb_scaling : List Nat := []
  num_cr_points : Nat := 0
  point_cr_value : List Nat := []
  point_cr_scaling : List Nat := []
  grain_scaling_minus_8 : Nat := 0
  ar_coeff_lag : Nat := 0
  ar_coeffs_y_plus_128 : List Nat := []
  ar_coeffs_cb_plus_128 : List Nat := []
  ar_coeffs_cr_plus_128 : List Nat := []
  ar_coeff_shift_minus_6 : Nat := 0
  grain_scale_shift : Nat := 0
  cb_mult : Nat := 0
  cb_luma_mult : Nat := 0
  cb_offset : Nat := 0
  cr_mult : Nat := 0
  cr_luma_mult : Nat := 0
  cr_offset : Nat := 0
  overlap_flag : Bool := false
  clip_to_restricted_range : Bool := false
  deriving Repr, DecidableEq

structure FrameHeader where
  show_existing_frame : Bool := false
  frame_to_show_map_idx : Nat := 0
  display_frame_id : Nat := 0
  frame_type : Nat := 0
  frame_is_intra : Bool := false
  show_frame : Bool := false
  showable_frame : Bool := false
  error_resilient_mode : Bool := false
  disable_cdf_update : Bool := false
  allow_screen_content_tools : Bool := false
  force_integer_mv : Bool := false
  current_frame_id : Nat := 0
  frame_size_override_flag : Bool := false
  order_hint : Nat := 0
  primary_ref_frame : Nat := 0
  refresh_frame_flags : Nat := 0
  ref_order_hint : Nat → Nat := fun _ => 0
  frame_size : FrameSize := {}
  render_size : RenderSize := {}
  allow_intrabc : Bool := false
  last_frame_idx : Nat := 0
  gold_frame_idx : Nat := 0
  ref_frame_idx : Nat → Nat := fun _ => 0
  allow_high_precision_mv : Bool := false
  interpolation_filter : Nat := 0
  is_motion_mode_switchable : Bool := false
  use_ref_frame_mvs : Bool := false
  disable_frame_end_update_cdf : Bool := false
  order_hints : Nat → Nat := fun _ => 0
  tile_info : TileInfo := {}
  quantization_params : QuantizationParams := {}
  segmentation_params : SegmentationParams := {}
  delta_q_params : DeltaQParams := {}
  delta_lf_params : DeltaLfParams := {}
  coded_lossless : Bool := false
  all_lossless : Bool := false
  loop_filter_params : LoopFilterParams := {}
  cdef_params : CdefParams := {}
  lr_params : LrParams := {}
  tx_mode : Nat := 0
  skip_mode_params : SkipModeParams := {}
  global_motion_params : GlobalMotionParams := {}
  film_grain_params : FilmGrainParams := {}
  reference_select : Bool := false
  allow_warped_motion : Bool := false
  reduced_tx_set : Bool := false

/-! ## Reference frame manager (`src/av1.rs`) -/

/--
`av1::RefFrameManager`.  `ref_frame_id` is `u16` in the source; `frame_buf`
and the counters are `i64`.
-/
structure RefFrameManager where
  ref_valid : Nat → Bool
  ref_frame_id : Nat → Nat
  ref_frame_type : Nat → Nat
  ref_order_hint : Nat → Nat
  saved_gm_params : Nat → Nat → Nat → Int
  decode_order : Int
  present_order : Int
  frame_buf : Nat → Int

/-- `RefFrameManager::new()` (`frame_buf` slots start at `i64::min_value()`). -/
def RefFrameManager.new : RefFrameManager where
  ref_valid := fun _ => false
  ref_frame_id := fun _ => 0
  ref_frame_type := fun _ => 0
  ref_order_hint := fun _ => 0
  saved_gm_params := fun _ _ _ => 0
  decode_order := 0
  present_order := 0
  frame_buf := fun _ => -(2 ^ 63)

/--
`RefFrameManager::mark_ref_frames(id_len, sh, fh)` (`src/av1.rs:66`).  The
`for` loop's iterations are independent, so the loop is written pointwise
with the `i < NUM_REF_FRAMES` bound as a guard.  All compared quantities
(`ref_frame_id[i]`, `current_frame_id`, both shifted constants and the
second branch's bound) are `u16` in the source; they are modeled on `Nat`
with Rust release semantics: a shift amount is masked modulo the bit width
(`1u16 << 16` evaluates to `1`), and the second branch's
`(1 << id_len) + current_frame_id - (1 << diff_len)` wraps modulo
`2^16 = 65536` (written `(dI + c + 65536 - d1) % 65536`, which equals the
wrapping add-then-subtract since `d1 ≤ 2^15 < 65536`).  A build with
overflow checks panics instead at `id_len = 16` — a corner
`parse_frame_header`'s `assert!(id_len <= 16)` admits; for
`diff_len < id_len ≤ 15` (every other parser-reachable call) this release
model coincides with exact arithmetic.  The first branch's subtraction
cannot underflow: it is guarded by `current_frame_id > 1 << diff_len`.
-/
def RefFrameManager.mark_ref_frames (r : RefFrameManager) (id_len : Nat)
    (sh : SequenceHeader) (fh : FrameHeader) : RefFrameManager :=
  let diff_len := sh.delta_frame_id_length
  let d1 := 1 <<< (diff_len % 16)
  let dI := 1 <<< (id_len % 16)
  { r with
    ref_valid := fun i =>
      if i < NUM_REF_FRAMES ∧
        (if fh.current_frame_id > d1 then
          r.ref_frame_id i > fh.current_frame_id ∨
            r.ref_frame_id i < fh.current_frame_id - d1
        else
          r.ref_frame_id i > fh.current_frame_id ∧
            r.ref_frame_id i < (dI + fh.current_frame_id + 65536 - d1) % 65536)
      then false
      else r.ref_valid i }

/-- `RefFrameManager::output_process(fh)`. -/
def RefFrameManager.output_process (r : RefFrameManager) (_fh : FrameHeader) :
    RefFrameManager :=
  { r with present_order := r.present_order + 1 }

/--
`RefFrameManager::update_process(fh)` (`src/av1.rs:97`).  Pointwise rendering
of the slot loop (iterations are independent); `decode_order` is incremented
after the loop, so `frame_buf` records the pre-call `decode_order`.
-/
def RefFrameManager.update_process (r : RefFrameManager) (fh : FrameHeader) :
    RefFrameManager :=
  { r with
                          ref_valid := fun i =>
                          if i < NUM_REF_FRAMES ∧ (fh.refresh_frame_flags >>> i) &&& 1 = 1 then true
                          else r.ref_valid i
                          ref_frame_id := fun i =>
                          if i < NUM_REF_FRAMES ∧ (fh.refresh_frame_flags >>> i) &&& 1 = 1 then fh.current_frame_id
                          else r.ref_frame_id i
                          ref_frame_type := fun i =>
                          if i < NUM_REF_FRAMES ∧ (fh.refresh_frame_flags >>> i) &&& 1 = 1 then fh.frame_type
                          else r.ref_frame_type i
                          ref_order_hint := fun i =>
                          if i < NUM_REF_FRAMES ∧ (fh.refresh_frame_flags >>> i) &&& 1 = 1 then fh.order_hint
                          else r.ref_order_hint i
                          saved_gm_params := fun i ref j =>
                          if i < NUM_REF_FRAMES ∧ (fh.refresh_frame_flags >>> i) &&& 1 = 1 ∧
                          LAST_FRAME ≤ ref ∧ ref ≤ ALTREF_FRAME ∧ j ≤ 5 then
                          fh.global_motion_params.gm_params ref j
                          else r.saved_gm_params i ref j
                          frame_buf := fun i =>
                          if i < NUM_REF_FRAMES ∧ (fh.refresh_frame_flags >>> i) &&& 1 = 1 then r.decode_order
                          else r.frame_buf i
                          decode_order := r.decode_order + 1 }

/--
Bitwise AND on `Int` in two's complement (`&` on `i32` in the source; the
value is width-independent because both operands are sign-extended).
Written with the kernel-computable `Nat` operations:
`x &&& ~y = x - (x &&& y)` since the bits of `x` split into those shared
with `y` and the rest.
-/
def intAnd : Int → Int → Int
  | .ofNat m, .ofNat n => .ofNat (m &&& n)
  | .ofNat m, .negSucc n => .ofNat (m - (m &&& n))
  | .negSucc m, .ofNat n => .ofNat (n - (n &&& m))
  | .negSucc m, .negSucc n => .negSucc (m ||| n)

/--
`av1::get_relative_dist(a, b, sh)` (`src/av1.rs:119`).  `i32` arithmetic
modeled on `Int`; `m = 1 << (order_hint_bits - 1)` is written `2 ^ _` (when
order hints are enabled the parser sets `order_hint_bits` in `1..=8`; at
`order_hint_bits = 0` the source's shift by `-1` would panic, behind the
early return).
-/
def get_relative_dist (a b : Int) (sh : SequenceHeader) : Int :=
  if !sh.enable_order_hint then 0
  else
    let diff := a - b
    let m : Int := 2 ^ (sh.order_hint_bits - 1)
    intAnd diff (m - 1) - intAnd diff m

/-! ## Concrete instances used by witnesses and counterexamples -/

/-- Manager state with slot 0 valid and holding frame-id 6. -/
def rfC3 : RefFrameManager :=
  { RefFrameManager.new with
                          ref_valid := fun i => i == 0
                          ref_frame_id := fun i => if i == 0 then 6 else 0 }

/-- Sequence header with `delta_frame_id_length = 2`. -/
def shC3 : SequenceHeader := { delta_frame_id_length := 2 }

/-- Frame header with `current_frame_id = 10`. -/
def fhC3 : FrameHeader := { current_frame_id := 10 }

/-- Sequence header with order hints enabled and `order_hint_bits = 3`. -/
def shC4 : SequenceHeader := { enable_order_hint := true, order_hint_bits := 3 }

/-- Frame header refreshing slots 0 and 1 with frame-id 7, order-hint 5. -/
def fhC6 : FrameHeader := { refresh_frame_flags := 3, current_frame_id := 7, order_hint := 5 }

/-! ## OBU syntax parsers (`src/obu.rs`) -/

/-- A source-exhaustion failure as a bit-level parser. -/
def BitM.fail {α : Type} : BitM α := fun _ => .fail

/-- `assert!(c)` as a bit-level parser step. -/
def BitM.assert (c : Prop) [Decidable c] : BitM Unit := fun bits =>
  if c then .ok ((), bits) else .panicked

/-- `f::<bool>(n)` — `FromU32 for bool` is `v != 0` (`src/bitio.rs:10`). -/
def BitReader.fBool (n : Nat) : BitM Bool := do
  let v ← BitReader.f n
  return v != 0

/-- Write `a[i] = v` on an array modeled as a function. -/
def upd {β : Type} (a : Nat → β) (i : Nat) (v : β) : Nat → β :=
  fun j => if j = i then v else a j

/-- Write `a[i][j] = v` on a two-dimensional array modeled as a function. -/
def upd2 {β : Type} (a : Nat → Nat → β) (i j : Nat) (v : β) : Nat → Nat → β :=
  fun i' j' => if i' = i ∧ j' = j then v else a i' j'

def POut.isOk {α : Type} : POut α → Bool
  | .ok _ => true
  | _ => false

def POut.isFail {α : Type} : POut α → Bool
  | .fail => true
  | _ => false

def POut.isPanicked {α : Type} : POut α → Bool
  | .panicked => true
  | _ => false

def POut.isUnsupported {α : Type} : POut α → Bool
  | .unsupported => true
  | _ => false

-- Color constants of `src/obu.rs:50-63`.
def CP_BT_709 : Nat := 1
def CP_UNSPECIFIED : Nat := 2
def TC_UNSPECIFIED : Nat := 2
def TC_SRGB : Nat := 13
def MC_IDENTITY : Nat := 0
def MC_UNSPECIFIED : Nat := 2
def CSP_UNKNOWN : Nat := 0

/--
`obu::trailing_bits` tail loop: `while let Some(bit) = f(1)` — consume the
rest of the data, failing on any 1 bit.
-/
def trailing_bits_go : List Bool → POut (Unit × List Bool)
  | [] => .ok ((), [])
  | b :: rest => if b then .fail else trailing_bits_go rest

/-- `obu::trailing_bits` (`src/obu.rs:552`): a single 1 bit, then 0 bits to
the end of the data. -/
def trailing_bits : BitM Unit := fun bits =>
  match bits with
  | [] => .fail
  | b :: rest => if b then trailing_bits_go rest else .fail

/-- `obu::parse_timing_info` (`src/obu.rs:645`); the
`equal_picture_interval` path hits `unimplemented!("uvlc() ...")`. -/
def parse_timing_info : BitM TimingInfo := do
  let nu ← BitReader.f 32
  let ts ← BitReader.f 32
  let epi ← BitReader.fBool 1
  if epi then
    BitM.unsupported
  else
    return { num_units_in_display_tick := nu, time_scale := ts,
                          equal_picture_interval := epi, num_ticks_per_picture := 0 }

/-- `obu::parse_color_config` (`src/obu.rs:568`). -/
def parse_color_config (sh : SequenceHeader) : BitM ColorConfig := do
  let cc : ColorConfig := {}
  let high_bitdepth ← BitReader.fBool 1
  let cc : ColorConfig ←
    if sh.seq_profile = 2 ∧ high_bitdepth then do
      let twelve_bit ← BitReader.fBool 1
      pure { cc with bit_depth := if twelve_bit then 12 else 10 }
    else if sh.seq_profile ≤ 2 then
      pure { cc with bit_depth := if high_bitdepth then 10 else 8 }
    else
      pure cc
  let cc : ColorConfig ←
    if sh.seq_profile = 1 then
      pure { cc with mono_chrome := false }
    else do
      let mc ← BitReader.fBool 1
      pure { cc with mono_chrome := mc }
  let cc := { cc with num_planes := if cc.mono_chrome then 1 else 3 }
  let color_description_present_flag ← BitReader.fBool 1
  let cc : ColorConfig ←
    if color_description_present_flag then do
      let cp ← BitReader.f 8
      let tc ← BitReader.f 8
      let mc ← BitReader.f 8
      pure { cc with color_primaries := cp, transfer_characteristics := tc,
                          matrix_coefficients := mc }
    else
      pure { cc with color_primaries := CP_UNSPECIFIED,
                          transfer_characteristics := TC_UNSPECIFIED, matrix_coefficients := MC_UNSPECIFIED }
  if cc.mono_chrome then do
    let cr ← BitReader.fBool 1
    return { cc with color_range := cr, subsampling_x := 1, subsampling_y := 1,
                          chroma_sample_position := CSP_UNKNOWN, separate_uv_delta_q := false }
  else if cc.color_primaries = CP_BT_709 ∧ cc.transfer_characteristics = TC_SRGB ∧
      cc.matrix_coefficients = MC_IDENTITY then
    return { cc with color_range := true, subsampling_x := 0, subsampling_y := 0 }
  else do
    let cr ← BitReader.fBool 1
    let cc := { cc with color_range := cr }
    let cc : ColorConfig ←
      if sh.seq_profile = 0 then
        pure { cc with subsampling_x := 1, subsampling_y := 1 }
      else if sh.seq_profile = 1 then
        pure { cc with subsampling_x := 0, subsampling_y := 0 }
      else
        if cc.bit_depth = 12 then do
          let sx ← BitReader.f 1
          let sy ← if sx ≠ 0 then BitReader.f 1 else pure 0
          pure { cc with subsampling_x := sx, subsampling_y := sy }
        else
          pure { cc with subsampling_x := 1, subsampling_y := 0 }
    let cc : ColorConfig ←
      if cc.subsampling_x ≠ 0 ∧ cc.subsampling_y ≠ 0 then do
        let csp ← BitReader.f 2
        pure { cc with chroma_sample_position := csp }
      else
        pure cc
    let sep ← BitReader.fBool 1
    return { cc with separate_uv_delta_q := sep }

/--
`obu::parse_sequence_header` (`src/obu.rs:1655`).  The non-reduced path
carries the source's `assert_eq!(sh.operating_points_cnt, 1)` (a panic when
the 5-bit count field is nonzero, before any operating point is parsed), and
the `decoder_model_info` / `initial_display_delay` `unimplemented!()` paths.
-/
def parse_sequence_header : BitM SequenceHeader := do
  let sh : SequenceHeader := {}
  let seq_profile ← BitReader.f 3
  let still_picture ← BitReader.fBool 1
  let reduced ← BitReader.fBool 1
  let sh := { sh with seq_profile, still_picture, reduced_still_picture_header := reduced }
  let sh : SequenceHeader ←
    if sh.reduced_still_picture_header then do
      let seq_level ← BitReader.f 5
      pure { sh with timing_info_present_flag := false,
                          decoder_model_info_present_flag := false,
                          initial_display_delay_present_flag := false, operating_points_cnt := 1,
                          op0 := { operating_point_idc := 0, seq_level_idx := seq_level, seq_tier := 0 } }
    else do
      let tip ← BitReader.fBool 1
      let sh := { sh with timing_info_present_flag := tip }
      let sh : SequenceHeader ←
        if sh.timing_info_present_flag then do
          let ti ← parse_timing_info
          let sh := { sh with timing_info := ti }
          let dmi ← BitReader.fBool 1
          if dmi then BitM.unsupported
          else pure { sh with decoder_model_info_present_flag := dmi }
        else
          pure { sh with decoder_model_info_present_flag := false }
      let idd ← BitReader.fBool 1
      let cnt ← BitReader.f 5
      let sh := { sh with initial_display_delay_present_flag := idd,
                          operating_points_cnt := cnt + 1 }
      if sh.operating_points_cnt ≠ 1 then
        BitM.panicked
      else do
        let idc ← BitReader.f 12
        let lvl ← BitReader.f 5
        let tier ← if lvl > 7 then BitReader.f 1 else pure 0
        let sh := { sh with
                          op0 := { operating_point_idc := idc, seq_level_idx := lvl, seq_tier := tier } }
        if sh.decoder_model_info_present_flag then BitM.unsupported
        else if sh.initial_display_delay_present_flag then BitM.unsupported
        else pure sh
  let fwb ← BitReader.f 4
  let fhb ← BitReader.f 4
  let sh := { sh with frame_width_bits := fwb + 1, frame_height_bits := fhb + 1 }
  let mfw ← BitReader.f sh.frame_width_bits
  let mfh ← BitReader.f sh.frame_height_bits
  let sh := { sh with max_frame_width := mfw + 1, max_frame_height := mfh + 1 }
  let sh : SequenceHeader ←
    if sh.reduced_still_picture_header then
      pure { sh with frame_id_numbers_present_flag := false }
    else do
      let fidp ← BitReader.fBool 1
      pure { sh with frame_id_numbers_present_flag := fidp }
  let sh : SequenceHeader ←
    if sh.frame_id_numbers_present_flag then do
      let d ← BitReader.f 4
      let a ← BitReader.f 3
      pure { sh with delta_frame_id_length := d + 2, additional_frame_id_length := a + 1 }
    else
      pure sh
  let u128 ← BitReader.fBool 1
  let efi ← BitReader.fBool 1
  let eief ← BitReader.fBool 1
  let sh := { sh with use_128x128_superblock := u128, enable_filter_intra := efi,
                          enable_intra_edge_filter := eief }
  let sh : SequenceHeader ←
    if sh.reduced_still_picture_header then
      pure { sh with enable_interintra_compound := false, enable_masked_compound := false,
                          enable_warped_motion := false, enable_dual_filter := false,
                          enable_order_hint := false, enable_jnt_comp := false,
                          enable_ref_frame_mvs := false,
                          seq_force_screen_content_tools := SELECT_SCREEN_CONTENT_TOOLS,
                          seq_force_integer_mv := SELECT_INTEGER_MV, order_hint_bits := 0 }
    else do
      let eic ← BitReader.fBool 1
      let emc ← BitReader.fBool 1
      let ewm ← BitReader.fBool 1
      let edf ← BitReader.fBool 1
      let eoh ← BitReader.fBool 1
      let sh := { sh with enable_interintra_compound := eic, enable_masked_compound := emc,
                          enable_warped_motion := ewm, enable_dual_filter := edf, enable_order_hint := eoh }
      let sh : SequenceHeader ←
        if sh.enable_order_hint then do
          let ejc ← BitReader.fBool 1
          let erfm ← BitReader.fBool 1
          pure { sh with enable_jnt_comp := ejc, enable_ref_frame_mvs := erfm }
        else
          pure { sh with enable_jnt_comp := false, enable_ref_frame_mvs := false }
      let seq_choose_screen_content_tools ← BitReader.fBool 1
      let sh : SequenceHeader ←
        if seq_choose_screen_content_tools then
          pure { sh with seq_force_screen_content_tools := SELECT_SCREEN_CONTENT_TOOLS }
        else do
          let v ← BitReader.f 1
          pure { sh with seq_force_screen_content_tools := v }
      let sh : SequenceHeader ←
        if sh.seq_force_screen_content_tools > 0 then do
          let seq_choose_integer_mv ← BitReader.f 1
          if seq_choose_integer_mv > 0 then
            pure { sh with seq_force_integer_mv := SELECT_INTEGER_MV }
          else do
            let v ← BitReader.f 1
            pure { sh with seq_force_integer_mv := v }
        else
          pure { sh with seq_force_integer_mv := SELECT_INTEGER_MV }
      if sh.enable_order_hint then do
        let ohb ← BitReader.f 3
        pure { sh with order_hint_bits := ohb + 1 }
      else
        pure { sh with order_hint_bits := 0 }
  let esr ← BitReader.fBool 1
  let ecdef ← BitReader.fBool 1
  let eres ← BitReader.fBool 1
  let sh := { sh with enable_superres := esr, enable_cdef := ecdef,
                          enable_restoration := eres }
  let cc ← parse_color_config sh
  let sh := { sh with color_config := cc }
  let fgpp ← BitReader.fBool 1
  let sh := { sh with film_grain_params_present := fgpp }
  trailing_bits
  return sh

/-- `obu::compute_image_size` (`src/obu.rs:524`): `(MiCols, MiRows)`. -/
def compute_image_size (fs : FrameSize) : Nat × Nat :=
  (2 * ((fs.frame_width + 7) >>> 3), 2 * ((fs.frame_height + 7) >>> 3))

/-- `obu::parse_frame_size` (`src/obu.rs:662`), including `superres_params()`. -/
def parse_frame_size (sh : SequenceHeader) (hdr : FrameHeader) : BitM FrameSize := do
  let fs : FrameSize := {}
  let fs : FrameSize ←
    if hdr.frame_size_override_flag then do
      let w ← BitReader.f sh.frame_width_bits
      let h ← BitReader.f sh.frame_height_bits
      pure { fs with frame_width := w + 1, frame_height := h + 1 }
    else
      pure { fs with frame_width := sh.max_frame_width, frame_height := sh.max_frame_height }
  let use_superres ← if sh.enable_superres then BitReader.fBool 1 else pure false
  let fs := { fs with use_superres := use_superres }
  let supreres_denom ←
    if fs.use_superres then do
      let coded_denom ← BitReader.f SUPERRS_DENOM_BITS
      pure (coded_denom + SUPERRES_DENOM_MIN)
    else
      pure SUPERRES_NUM
  let fs := { fs with upscaled_width := fs.frame_width }
  let fs := { fs with
    frame_width := (fs.upscaled_width * SUPERRES_NUM + supreres_denom / 2) / supreres_denom }
  return fs

/-- `obu::parse_render_size` (`src/obu.rs:701`). -/
def parse_render_size (fs : FrameSize) : BitM RenderSize := do
  let rs : RenderSize := {}
  let render_and_frame_size_different ← BitReader.fBool 1
  if render_and_frame_size_different then do
    let w ← BitReader.f 16
    let h ← BitReader.f 16
    return { rs with render_width := w + 1, render_height := h + 1 }
  else
    return { rs with render_width := fs.upscaled_width, render_height := fs.frame_height }

/-- `obu::read_interpolation_filter` (`src/obu.rs:717`). -/
def read_interpolation_filter : BitM Nat := do
  let is_filter_switchable ← BitReader.fBool 1
  if is_filter_switchable then
    pure SWITCHABLE
  else
    BitReader.f 2

/-- The `TOTAL_REFS_PER_FRAME` ref-delta loop of `parse_loop_filter_params`. -/
def lfpRefDeltaLoop : Nat → Nat → LoopFilterParams → BitM LoopFilterParams
  | 0, _, lfp => pure lfp
  | k + 1, i, lfp => do
    let update_ref_delta ← BitReader.fBool 1
    if update_ref_delta then do
      let d ← BitReader.su (1 + 6)
      lfpRefDeltaLoop k (i + 1)
        { lfp with loop_filter_ref_deltas := upd lfp.loop_filter_ref_deltas i d }
    else
      lfpRefDeltaLoop k (i + 1) lfp

/-- The 2-iteration mode-delta loop of `parse_loop_filter_params`. -/
def lfpModeDeltaLoop : Nat → Nat → LoopFilterParams → BitM LoopFilterParams
  | 0, _, lfp => pure lfp
  | k + 1, i, lfp => do
    let update_mode_delta ← BitReader.fBool 1
    if update_mode_delta then do
      let d ← BitReader.su (1 + 6)
      lfpModeDeltaLoop k (i + 1)
        { lfp with loop_filter_mode_deltas := upd lfp.loop_filter_mode_deltas i d }
    else
      lfpModeDeltaLoop k (i + 1) lfp

/-- `obu::parse_loop_filter_params` (`src/obu.rs:732`). -/
def parse_loop_filter_params (cc : ColorConfig) (hdr : FrameHeader) : BitM LoopFilterParams := do
  let lfp : LoopFilterParams := {}
  if hdr.coded_lossless ∨ hdr.allow_intrabc then
    return { lfp with
      loop_filter_level := fun i =>
        if i = 0 then 0 else if i = 1 then 0 else lfp.loop_filter_level i,
      loop_filter_ref_deltas := fun i =>
        if i = INTRA_FRAME then 1 else if i = LAST_FRAME then 0
        else if i = LAST2_FRAME then 0 else if i = LAST3_FRAME then 0
        else if i = BWDREF_FRAME then 0 else if i = GOLDEN_FRAME then -1
        else if i = ALTREF_FRAME then -1 else if i = ALTREF2_FRAME then -1
        else lfp.loop_filter_ref_deltas i,
      loop_filter_mode_deltas := fun i => if i < 2 then 0 else lfp.loop_filter_mode_deltas i }
  else do
    let l0 ← BitReader.f 6
    let l1 ← BitReader.f 6
    let lfp := { lfp with
      loop_filter_level := fun i =>
        if i = 0 then l0 else if i = 1 then l1 else lfp.loop_filter_level i }
    let lfp : LoopFilterParams ←
      if cc.num_planes > 1 then
        if lfp.loop_filter_level 0 ≠ 0 ∨ lfp.loop_filter_level 1 ≠ 0 then do
          let l2 ← BitReader.f 6
          let l3 ← BitReader.f 6
          pure { lfp with
            loop_filter_level := fun i =>
              if i = 2 then l2 else if i = 3 then l3 else lfp.loop_filter_level i }
        else
          pure lfp
      else
        pure lfp
    let sharp ← BitReader.f 3
    let lde ← BitReader.fBool 1
    let lfp := { lfp with loop_filter_sharpness := sharp, loop_filter_delta_enabled := lde }
    if lfp.loop_filter_delta_enabled then do
      let loop_filter_delta_update ← BitReader.fBool 1
      if loop_filter_delta_update then do
        let lfp ← lfpRefDeltaLoop TOTAL_REFS_PER_FRAME 0 lfp
        lfpModeDeltaLoop 2 0 lfp
      else
        return lfp
    else
      return lfp

/--
`tile_log2(blk_size, target)`: smallest `k` with `blk_size << k ≥ target`
(the source's `while` loop).  The fuel bounds the iterations; every call
site has `blk_size ≥ 1`, where `k = target` always suffices, so the fuel is
never exhausted.
-/
def tile_log2_go (blk_size target : Nat) : Nat → Nat → Nat
  | 0, k => k
  | fuel + 1, k =>
    if blk_size <<< k < target then tile_log2_go blk_size target fuel (k + 1) else k

def tile_log2 (blk_size target : Nat) : Nat := tile_log2_go blk_size target target 0

/--
The `while tile_cols_log2 < max_log2_tile_cols` one-bit increment loop of
`parse_tile_info`; the fuel `maxv - cur` is exactly the iteration bound.
-/
def tileIncrementLoopGo : Nat → Nat → Nat → BitM Nat
  | 0, cur, _ => pure cur
  | fuel + 1, cur, maxv =>
    if cur < maxv then do
      let increment ← BitReader.fBool 1
      if increment then tileIncrementLoopGo fuel (cur + 1) maxv else pure cur
    else
      pure cur

def tileIncrementLoop (cur maxv : Nat) : BitM Nat := tileIncrementLoopGo (maxv - cur) cur maxv

/--
The `while start_sb < target` tile-counting loops of the uniform path
(`i += 1; start_sb += size`); `size ≥ 1` at the call sites, so `target`
iterations of fuel suffice.
-/
def tileCountLoop (size target : Nat) : Nat → Nat → Nat → Nat
  | 0, i, _ => i
  | fuel + 1, i, start_sb =>
    if start_sb < target then tileCountLoop size target fuel (i + 1) (start_sb + size) else i

/--
The non-uniform column loop (`ns(maxWidth)` per tile): returns
`(i, widest_tile_sb)`.  Each pass advances `start_sb` by at least 1, so
`sb_cols` iterations of fuel suffice.
-/
def tileWidthLoop (sb_cols max_tile_width_sb : Nat) :
    Nat → Nat → Nat → Nat → BitM (Nat × Nat)
  | 0, i, _, widest_tile_sb => pure (i, widest_tile_sb)
  | fuel + 1, i, start_sb, widest_tile_sb =>
    if start_sb < sb_cols then do
      let max_width := min (sb_cols - start_sb) max_tile_width_sb
      let width_in_sbs ← (fun bits => BitM.bind (BitReader.ns max_width)
        (fun v => BitM.pure (v + 1)) bits)
      let size_sb := width_in_sbs
      tileWidthLoop sb_cols max_tile_width_sb fuel (i + 1) (start_sb + size_sb)
        (max size_sb widest_tile_sb)
    else
      pure (i, widest_tile_sb)

/-- The non-uniform row loop (`ns(maxHeight)` per tile): returns `i`. -/
def tileHeightLoop (sb_rows max_tile_height_sb : Nat) :
    Nat → Nat → Nat → BitM Nat
  | 0, i, _ => pure i
  | fuel + 1, i, start_sb =>
    if start_sb < sb_rows then do
      let max_height := min (sb_rows - start_sb) max_tile_height_sb
      let height_in_sbs ← (fun bits => BitM.bind (BitReader.ns max_height)
        (fun v => BitM.pure (v + 1)) bits)
      let size_sb := height_in_sbs
      tileHeightLoop sb_rows max_tile_height_sb fuel (i + 1) (start_sb + size_sb)
    else
      pure i

/-- The trailing reads of `parse_tile_info` (`context_update_tile_id`,
`tile_size_bytes`). -/
def tileInfoFinish (ti : TileInfo) (tile_cols_log2 tile_rows_log2 : Nat) : BitM TileInfo := do
  if tile_cols_log2 > 0 ∨ tile_rows_log2 > 0 then do
    let cuti ← BitReader.f (tile_cols_log2 + tile_rows_log2)
    let tsb ← BitReader.f 2
    return { ti with context_update_tile_id := cuti, tile_size_bytes := tsb + 1 }
  else
    return { ti with context_update_tile_id := 0 }

/--
`obu::parse_tile_info` (`src/obu.rs:789`).  The uniform path's
`min_log2_tile_rows` is `max(min_log2_tiles − tile_cols_log2, 0) as usize`
in the source; `Nat` truncated subtraction is exactly that.
-/
def parse_tile_info (sh : SequenceHeader) (fs : FrameSize) : BitM TileInfo := do
  let ti : TileInfo := {}
  let (mi_cols, mi_rows) := compute_image_size fs
  let sb_cols := if sh.use_128x128_superblock then (mi_cols + 31) >>> 5 else (mi_cols + 15) >>> 4
  let sb_rows := if sh.use_128x128_superblock then (mi_rows + 31) >>> 5 else (mi_rows + 15) >>> 4
  let sb_shift := if sh.use_128x128_superblock then 5 else 4
  let sb_size := sb_shift + 2
  let max_tile_width_sb := MAX_TILE_WIDTH >>> sb_size
  let max_tile_area_sb := MAX_TILE_AREA >>> (2 * sb_size)
  let min_log2_tile_cols := tile_log2 max_tile_width_sb sb_cols
  let max_log2_tile_cols := tile_log2 1 (min sb_cols MAX_TILE_COLS)
  let max_log2_tile_rows := tile_log2 1 (min sb_rows MAX_TILE_ROWS)
  let min_log2_tiles := max min_log2_tile_cols (tile_log2 max_tile_area_sb (sb_rows * sb_cols))
  let uniform_tile_spacing_flag ← BitReader.fBool 1
  if uniform_tile_spacing_flag then do
    let tile_cols_log2 ← tileIncrementLoop min_log2_tile_cols max_log2_tile_cols
    let tile_width_sb := (sb_cols + (1 <<< tile_cols_log2) - 1) >>> tile_cols_log2
    let ti := { ti with tile_cols := tileCountLoop tile_width_sb sb_cols sb_cols 0 0 }
    let min_log2_tile_rows := min_log2_tiles - tile_cols_log2
    let tile_rows_log2 ← tileIncrementLoop min_log2_tile_rows max_log2_tile_rows
    let tile_height_sb := (sb_rows + (1 <<< tile_rows_log2) - 1) >>> tile_rows_log2
    let ti := { ti with tile_rows := tileCountLoop tile_height_sb sb_rows sb_rows 0 0 }
    tileInfoFinish ti tile_cols_log2 tile_rows_log2
  else do
    let (cols, widest_tile_sb) ← tileWidthLoop sb_cols max_tile_width_sb sb_cols 0 0 0
    let ti := { ti with tile_cols := cols }
    let tile_cols_log2 := tile_log2 1 ti.tile_cols
    let max_tile_area_sb :=
      if min_log2_tiles > 0 then (sb_rows * sb_cols) >>> (min_log2_tiles + 1)
      else sb_rows * sb_cols
    let max_tile_height_sb := max (max_tile_area_sb / widest_tile_sb) 1
    let rows ← tileHeightLoop sb_rows max_tile_height_sb sb_rows 0 0
    let ti := { ti with tile_rows := rows }
    let tile_rows_log2 := tile_log2 1 ti.tile_rows
    tileInfoFinish ti tile_cols_log2 tile_rows_log2

/-- `obu::read_delta_q` (`src/obu.rs:963`). -/
def read_delta_q : BitM Int := do
  let delta_coded ← BitReader.fBool 1
  if delta_coded then
    BitReader.su (1 + 6)
  else
    pure 0

/-- `obu::parse_quantization_params` (`src/obu.rs:918`). -/
def parse_quantization_params (cc : ColorConfig) : BitM QuantizationParams := do
  let qp : QuantizationParams := {}
  let bqi ← BitReader.f 8
  let qp := { qp with base_q_idx := bqi }
  let dydc ← read_delta_q
  let qp := { qp with deltaq_y_dc := dydc }
  let qp : QuantizationParams ←
    if cc.num_planes > 1 then do
      let diff_uv_delta ← if cc.separate_uv_delta_q then BitReader.fBool 1 else pure false
      let dudc ← read_delta_q
      let duac ← read_delta_q
      let qp := { qp with deltaq_u_dc := dudc, deltaq_u_ac := duac }
      if diff_uv_delta then do
        let dvdc ← read_delta_q
        let dvac ← read_delta_q
        pure { qp with deltaq_v_dc := dvdc, deltaq_v_ac := dvac }
      else
        pure { qp with deltaq_v_dc := qp.deltaq_u_dc, deltaq_v_ac := qp.deltaq_u_ac }
    else
      pure { qp with deltaq_u_dc := 0, deltaq_u_ac := 0, deltaq_v_dc := 0, deltaq_v_ac := 0 }
  let um ← BitReader.fBool 1
  let qp := { qp with using_qmatrix := um }
  if qp.using_qmatrix then do
    let qmy ← BitReader.f 4
    let qmu ← BitReader.f 4
    let qp := { qp with qm_y := qmy, qm_u := qmu }
    if ¬cc.separate_uv_delta_q then
      return { qp with qm_v := qp.qm_u }
    else do
      let qmv ← BitReader.f 4
      return { qp with qm_v := qmv }
  else
    return qp

-- The segmentation feature tables (`src/obu.rs:985-998`).
def Segmentation_Feature_Bits : Nat → Nat
  | 0 => 8
  | 1 => 6
  | 2 => 6
  | 3 => 6
  | 4 => 6
  | 5 => 3
  | _ => 0

def Segmentation_Feature_Signed : Nat → Nat
  | 0 => 1
  | 1 => 1
  | 2 => 1
  | 3 => 1
  | 4 => 1
  | _ => 0

/--
One feature of the segmentation data loop: the enable bit and the value
read; the source clips the value (`clipped_value`) and then discards it, so
only the bit consumption is kept.
-/
def segFeatureRead (j : Nat) : BitM Unit := do
  let feature_enabled ← BitReader.fBool 1
  if feature_enabled then do
    let bits_to_read := Segmentation_Feature_Bits j
    if Segmentation_Feature_Signed j = 1 then do
      let _ ← BitReader.su (1 + bits_to_read)
      pure ()
    else do
      let _ ← BitReader.f bits_to_read
      pure ()
  else
    pure ()

/-- Inner loop over `j in 0..SEG_LVL_MAX` (`j = SEG_LVL_MAX - k`). -/
def segFeatureLoopJ : Nat → BitM Unit
  | 0 => pure ()
  | k + 1 => do
    segFeatureRead (SEG_LVL_MAX - (k + 1))
    segFeatureLoopJ k

/-- Outer loop over the `MAX_SEGMENTS` segments. -/
def segFeatureLoopI : Nat → BitM Unit
  | 0 => pure ()
  | k + 1 => do
    segFeatureLoopJ SEG_LVL_MAX
    segFeatureLoopI k

/-- `obu::parse_segmentation_params` (`src/obu.rs:978`). -/
def parse_segmentation_params (hdr : FrameHeader) : BitM SegmentationParams := do
  let sp : SegmentationParams := {}
  let se ← BitReader.fBool 1
  let sp := { sp with segmentation_enabled := se }
  if sp.segmentation_enabled then do
    let sp : SegmentationParams ←
      if hdr.primary_ref_frame = PRIMARY_REF_NONE then
        pure { sp with
          segmentation_update_map := true,
          segmentation_temporal_update := false,
          segmentation_update_data := true }
      else do
        let sum ← BitReader.fBool 1
        let sp := { sp with segmentation_update_map := sum }
        let sp : SegmentationParams ←
          if sp.segmentation_update_map then do
            let stu ← BitReader.fBool 1
            pure { sp with segmentation_temporal_update := stu }
          else
            pure sp
        let sud ← BitReader.fBool 1
        pure { sp with segmentation_update_data := sud }
    if sp.segmentation_update_data then do
      segFeatureLoopI MAX_SEGMENTS
      return sp
    else
      return sp
  else
    return sp

/-- `obu::parse_delta_q_params` (`src/obu.rs:1049`). -/
def parse_delta_q_params (qp : QuantizationParams) : BitM DeltaQParams := do
  let dqp : DeltaQParams := {}
  let dqp := { dqp with delta_q_res := 0, delta_q_present := false }
  let dqp : DeltaQParams ←
    if qp.base_q_idx > 0 then do
      let p ← BitReader.fBool 1
      pure { dqp with delta_q_present := p }
    else
      pure dqp
  if dqp.delta_q_present then do
    let r ← BitReader.f 2
    return { dqp with delta_q_res := r }
  else
    return dqp

/-- `obu::parse_delta_lf_params` (`src/obu.rs:1070`). -/
def parse_delta_lf_params (hdr : FrameHeader) : BitM DeltaLfParams := do
  let dlfp : DeltaLfParams := {}
  let dlfp := { dlfp with delta_lf_present := false, delta_lf_res := 0, delta_lf_multi := false }
  if hdr.delta_q_params.delta_q_present then do
    let dlfp : DeltaLfParams ←
      if ¬hdr.allow_intrabc then do
        let p ← BitReader.fBool 1
        pure { dlfp with delta_lf_present := p }
      else
        pure dlfp
    if dlfp.delta_lf_present then do
      let r ← BitReader.f 2
      let m ← BitReader.fBool 1
      return { dlfp with delta_lf_res := r, delta_lf_multi := m }
    else
      return dlfp
  else
    return dlfp

/-- The strength loop of `parse_cdef_params` (`for i in 0..(1 << cdef_bits)`). -/
def cdefStrengthLoop (sh : SequenceHeader) : Nat → Nat → CdefParams → BitM CdefParams
  | 0, _, cdefp => pure cdefp
  | k + 1, i, cdefp => do
    let ypri ← BitReader.f 4
    let ysec ← BitReader.f 2
    let ysec := if ysec = 3 then ysec + 1 else ysec
    let cdefp := { cdefp with
      cdef_y_pri_strength := upd cdefp.cdef_y_pri_strength i ypri,
      cdef_y_sec_strength := upd cdefp.cdef_y_sec_strength i ysec }
    let cdefp : CdefParams ←
      if sh.color_config.num_planes > 1 then do
        let uvpri ← BitReader.f 4
        let uvsec ← BitReader.f 2
        let uvsec := if uvsec = 3 then uvsec + 1 else uvsec
        pure { cdefp with
          cdef_uv_pri_strength := upd cdefp.cdef_uv_pri_strength i uvpri,
          cdef_uv_sec_strength := upd cdefp.cdef_uv_sec_strength i uvsec }
      else
        pure cdefp
    cdefStrengthLoop sh k (i + 1) cdefp

/-- `obu::parse_cdef_params` (`src/obu.rs:1095`). -/
def parse_cdef_params (sh : SequenceHeader) (hdr : FrameHeader) : BitM CdefParams := do
  let cdefp : CdefParams := {}
  if hdr.coded_lossless ∨ hdr.allow_intrabc ∨ ¬sh.enable_cdef then
    return { cdefp with
      cdef_bits := 0,
      cdef_y_pri_strength := upd cdefp.cdef_y_pri_strength 0 0,
      cdef_y_sec_strength := upd cdefp.cdef_y_sec_strength 0 0,
      cdef_uv_pri_strength := upd cdefp.cdef_uv_pri_strength 0 0,
      cdef_uv_sec_strength := upd cdefp.cdef_uv_sec_strength 0 0,
      cdef_damping := 3 }
  else do
    let cd ← BitReader.f 2
    let cb ← BitReader.f 2
    let cdefp := { cdefp with cdef_damping := cd + 3, cdef_bits := cb }
    cdefStrengthLoop sh (1 <<< cdefp.cdef_bits) 0 cdefp

-- `Remap_Lr_Type` (`src/obu.rs:1142`).
def Remap_Lr_Type : Nat → Nat
  | 0 => RESTORE_NONE
  | 1 => RESTORE_SWITCHABLE
  | 2 => RESTORE_WIENER
  | _ => RESTORE_SGRPROJ

/-- The per-plane restoration-type loop of `parse_lr_params`; returns the
updated params together with `use_chroma_lr`. -/
def lrTypeLoop : Nat → Nat → LrParams → Bool → BitM (LrParams × Bool)
  | 0, _, lrp, use_chroma_lr => pure (lrp, use_chroma_lr)
  | k + 1, i, lrp, use_chroma_lr => do
    let lr_type ← BitReader.f 2
    let lrp := { lrp with
      frame_restoration_type := upd lrp.frame_restoration_type i (Remap_Lr_Type lr_type) }
    let (lrp, use_chroma_lr) :=
      if lrp.frame_restoration_type i ≠ RESTORE_NONE then
        ({ lrp with uses_lr := true }, if i > 0 then true else use_chroma_lr)
      else
        (lrp, use_chroma_lr)
    lrTypeLoop k (i + 1) lrp use_chroma_lr

/--
`obu::parse_lr_params` (`src/obu.rs:1134`).  `loop_restoration_size` is
`[u8; 3]` in the source: the assignment at `src/obu.rs:1180` casts
`RESTORATION_TILESIZE_MAX >> (2 - lr_unit_shift)` with `as u8`, which
wraps `256` to `0` when `lr_unit_shift = 2`; the cast is modeled by
`% 256`.
-/
def parse_lr_params (sh : SequenceHeader) (hdr : FrameHeader) : BitM LrParams := do
  let lrp : LrParams := {}
  if hdr.all_lossless ∨ hdr.allow_intrabc ∨ ¬sh.enable_restoration then
    return { lrp with
      frame_restoration_type := fun i =>
        if i < 3 then RESTORE_NONE else lrp.frame_restoration_type i,
      uses_lr := false }
  else do
    let lrp := { lrp with uses_lr := false }
    let (lrp, use_chroma_lr) ← lrTypeLoop sh.color_config.num_planes 0 lrp false
    if lrp.uses_lr then do
      let lr_unit_shift ←
        if sh.use_128x128_superblock then do
          let s ← BitReader.f 1
          pure (s + 1)
        else do
          let s ← BitReader.f 1
          if s ≠ 0 then do
            let extra ← BitReader.f 1
            pure (s + extra)
          else
            pure s
      let lrp := { lrp with
        loop_restoration_size :=
          upd lrp.loop_restoration_size 0
            ((RESTORATION_TILESIZE_MAX >>> (2 - lr_unit_shift)) % 256) }
      let lr_uv_shift ←
        if sh.color_config.subsampling_x ≠ 0 ∧ sh.color_config.subsampling_y ≠ 0 ∧
            use_chroma_lr then
          BitReader.f 1
        else
          pure 0
      let lrp := { lrp with
        loop_restoration_size :=
          upd lrp.loop_restoration_size 1 (lrp.loop_restoration_size 0 >>> lr_uv_shift) }
      let lrp := { lrp with
        loop_restoration_size :=
          upd lrp.loop_restoration_size 2 (lrp.loop_restoration_size 0 >>> lr_uv_shift) }
      return lrp
    else
      return lrp

/-- `obu::read_tx_mode` (`src/obu.rs:1196`). -/
def read_tx_mode (hdr : FrameHeader) : BitM Nat := do
  if hdr.coded_lossless then
    pure ONLY_4X4
  else do
    let tx_mode_select ← BitReader.fBool 1
    if tx_mode_select then pure TX_MODE_SELECT else pure TX_MODE_LARGEST

/--
The first scan of `parse_skip_mode_params` (`src/obu.rs:1230-1243`): find
the closest forward and backward references by order hint.  `i32`
accumulators modeled on `Int`; `i` counts up while `k` counts the remaining
`REFS_PER_FRAME` iterations.
-/
def skipModeScan (sh : SequenceHeader) (rf : RefFrameManager) (hdr : FrameHeader) :
    Nat → Nat → Int → Int → Int → Int → Int × Int × Int × Int
  | 0, _, forward_idx, forward_hint, backward_idx, backward_hint =>
    (forward_idx, forward_hint, backward_idx, backward_hint)
  | k + 1, i, forward_idx, forward_hint, backward_idx, backward_hint =>
    let ref_hint : Int := rf.ref_order_hint (hdr.ref_frame_idx i)
    if get_relative_dist ref_hint (hdr.order_hint : Int) sh < 0 then
      if forward_idx < 0 ∨ get_relative_dist ref_hint forward_hint sh > 0 then
        skipModeScan sh rf hdr k (i + 1) (i : Int) ref_hint backward_idx backward_hint
      else
        skipModeScan sh rf hdr k (i + 1) forward_idx forward_hint backward_idx backward_hint
    else if get_relative_dist ref_hint (hdr.order_hint : Int) sh > 0 then
      if backward_idx < 0 ∨ get_relative_dist ref_hint backward_hint sh < 0 then
        skipModeScan sh rf hdr k (i + 1) forward_idx forward_hint (i : Int) ref_hint
      else
        skipModeScan sh rf hdr k (i + 1) forward_idx forward_hint backward_idx backward_hint
    else
      skipModeScan sh rf hdr k (i + 1) forward_idx forward_hint backward_idx backward_hint

/--
The second scan (`src/obu.rs:1255-1265`): the second-closest forward
reference, used when no backward reference exists.
-/
def skipModeSecondScan (sh : SequenceHeader) (rf : RefFrameManager) (hdr : FrameHeader)
    (forward_hint : Int) : Nat → Nat → Int → Int → Int × Int
  | 0, _, second_forward_id, second_forward_hint => (second_forward_id, second_forward_hint)
  | k + 1, i, second_forward_id, second_forward_hint =>
    let ref_hint : Int := rf.ref_order_hint (hdr.ref_frame_idx i)
    if get_relative_dist ref_hint forward_hint sh < 0 then
      if second_forward_id < 0 ∨ get_relative_dist ref_hint second_forward_hint sh > 0 then
        skipModeSecondScan sh rf hdr forward_hint k (i + 1) (i : Int) ref_hint
      else
        skipModeSecondScan sh rf hdr forward_hint k (i + 1) second_forward_id
          second_forward_hint
    else
      skipModeSecondScan sh rf hdr forward_hint k (i + 1) second_forward_id second_forward_hint

/-- `obu::parse_skip_mode_params` (`src/obu.rs:1215`).  The `as u8` casts of
the nonnegative skip-mode frame indices are `Int.toNat`. -/
def parse_skip_mode_params (sh : SequenceHeader) (hdr : FrameHeader) (rf : RefFrameManager) :
    BitM SkipModeParams := do
  let smp : SkipModeParams := {}
  let (skip_mode_allowed, smp) :=
    if hdr.frame_is_intra ∨ ¬hdr.reference_select ∨ ¬sh.enable_order_hint then
      (false, smp)
    else
      let (forward_idx, forward_hint, backward_idx, _backward_hint) :=
        skipModeScan sh rf hdr REFS_PER_FRAME 0 (-1) 0 (-1) 0
      if forward_idx < 0 then
        (false, smp)
      else if backward_idx ≥ 0 then
        (true, { smp with
          skip_mode_frame := fun j =>
            if j = 0 then ((LAST_FRAME : Int) + min forward_idx backward_idx).toNat
            else if j = 1 then ((LAST_FRAME : Int) + max forward_idx backward_idx).toNat
            else smp.skip_mode_frame j })
      else
        let (second_forward_id, _second_forward_hint) :=
          skipModeSecondScan sh rf hdr forward_hint REFS_PER_FRAME 0 (-1) 0
        if second_forward_id < 0 then
          (false, smp)
        else
          (true, { smp with
            skip_mode_frame := fun j =>
              if j = 0 then ((LAST_FRAME : Int) + min forward_idx second_forward_id).toNat
              else if j = 1 then ((LAST_FRAME : Int) + max forward_idx second_forward_id).toNat
              else smp.skip_mode_frame j })
  if skip_mode_allowed then do
    let p ← BitReader.fBool 1
    return { smp with skip_mode_present := p }
  else
    return { smp with skip_mode_present := false }

/-- Arithmetic right shift of an `i32` by `n`: flooring division by `2^n`. -/
def asr (v : Int) (n : Nat) : Int := Int.ediv v (2 ^ n)

/-- `obu::inverse_recenter` (`src/obu.rs:1428`); `(v + 1) >> 1` and `v >> 1`
are arithmetic shifts. -/
def inverse_recenter (r v : Int) : Int :=
  if v > 2 * r then v
  else if intAnd v 1 ≠ 0 then r - asr (v + 1) 1
  else r + asr v 1

/--
The loop of `obu::decode_subexp` (`src/obu.rs:1403`).  Every pass through
the `else` branch consumes one bit, so `bits.length + 1` fuel can never run
out; the fuel-exhausted outcome `.fail` is unreachable.
-/
def decode_subexp_go (num_syms : Int) : Nat → Nat → Int → BitM Int
  | 0, _, _ => BitM.fail
  | fuel + 1, i, mk => do
    let k := 3
    let b2 := if i ≠ 0 then k + i - 1 else k
    let a : Int := 2 ^ b2
    if num_syms ≤ mk + 3 * a then do
      let subexp_final_bits ← BitReader.ns (num_syms - mk).toNat
      return (subexp_final_bits : Int) + mk
    else do
      let subexp_more_bits ← BitReader.fBool 1
      if subexp_more_bits then
        decode_subexp_go num_syms fuel (i + 1) (mk + a)
      else do
        let subexp_bits ← BitReader.ns b2
        return (subexp_bits : Int) + mk

/-- `obu::decode_subexp` (`src/obu.rs:1403`). -/
def decode_subexp (num_syms : Int) : BitM Int := fun bits =>
  decode_subexp_go num_syms (bits.length + 1) 0 0 bits

/-- `obu::decode_unsigned_subexp_with_ref` (`src/obu.rs:1389`);
`(r << 1)` on `i32` is `r * 2`. -/
def decode_unsigned_subexp_with_ref (mx r : Int) : BitM Int := do
  let v ← decode_subexp mx
  if r * 2 ≤ mx then
    return inverse_recenter r v
  else
    return mx - 1 - inverse_recenter (mx - 1 - r) v

/-- `obu::decode_signed_subexp_with_ref` (`src/obu.rs:1378`). -/
def decode_signed_subexp_with_ref (low high r : Int) : BitM Int := do
  let x ← decode_unsigned_subexp_with_ref (high - low) (r - low)
  return x + low

/-- `obu::read_global_param` (`src/obu.rs:1345`); `i32` shifts become
multiplication / flooring division by powers of two. -/
def read_global_param (type_ : Nat) (ref_ idx : Nat) (hdr : FrameHeader) : BitM Int := do
  let (abs_bits, prec_bits) :=
    if idx < 2 then
      if type_ = TRANSLATION then
        (GM_ABS_TRANS_ONLY_BITS - (if hdr.allow_high_precision_mv then 0 else 1),
          GM_TRANS_ONLY_PREC_BITS - (if hdr.allow_high_precision_mv then 0 else 1))
      else
        (GM_ABS_TRANS_BITS, GM_TRANS_PREC_BITS)
    else
      (GM_ABS_ALPHA_BITS, GM_ALPHA_PREC_BITS)
  let prec_diff := WARPEDMODEL_PREC_BITS - prec_bits
  let round : Int := if idx % 3 = 2 then 2 ^ WARPEDMODEL_PREC_BITS else 0
  let sub : Int := if idx % 3 = 2 then 2 ^ prec_bits else 0
  let mx : Int := 2 ^ abs_bits
  let r := asr (hdr.global_motion_params.prev_gm_params ref_ idx) prec_diff - sub
  let gm_params ← do
    let x ← decode_signed_subexp_with_ref (-mx) (mx + 1) r
    pure (x * 2 ^ prec_diff + round)
  return gm_params

/-- The per-reference loop of `parse_global_motion_params`
(`for ref_ in LAST_FRAME..=ALTREF_FRAME`). -/
def gmRefLoop (hdr : FrameHeader) : Nat → Nat → GlobalMotionParams → BitM GlobalMotionParams
  | 0, _, gmp => pure gmp
  | k + 1, ref_, gmp => do
    let is_global ← BitReader.fBool 1
    let type_ ←
      if is_global then do
        let is_rot_zoom ← BitReader.fBool 1
        if is_rot_zoom then
          pure ROTZOOM
        else do
          let is_translation ← BitReader.fBool 1
          pure (if is_translation then TRANSLATION else AFFINE)
      else
        pure IDENTITY
    let gmp := { gmp with gm_type := upd gmp.gm_type ref_ type_ }
    let gmp : GlobalMotionParams ←
      if type_ ≥ ROTZOOM then do
        let p2 ← read_global_param type_ ref_ 2 hdr
        let gmp := { gmp with gm_params := upd2 gmp.gm_params ref_ 2 p2 }
        let p3 ← read_global_param type_ ref_ 3 hdr
        let gmp := { gmp with gm_params := upd2 gmp.gm_params ref_ 3 p3 }
        if type_ = AFFINE then do
          let p4 ← read_global_param type_ ref_ 4 hdr
          let gmp := { gmp with gm_params := upd2 gmp.gm_params ref_ 4 p4 }
          let p5 ← read_global_param type_ ref_ 5 hdr
          pure { gmp with gm_params := upd2 gmp.gm_params ref_ 5 p5 }
        else do
          let gmp := { gmp with
            gm_params := upd2 gmp.gm_params ref_ 4 (-(gmp.gm_params ref_ 3)) }
          pure { gmp with gm_params := upd2 gmp.gm_params ref_ 5 (gmp.gm_params ref_ 2) }
      else
        pure gmp
    let gmp : GlobalMotionParams ←
      if type_ > TRANSLATION then do
        let p0 ← read_global_param type_ ref_ 1 hdr
        let gmp := { gmp with gm_params := upd2 gmp.gm_params ref_ 0 p0 }
        let p1 ← read_global_param type_ ref_ 0 hdr
        pure { gmp with gm_params := upd2 gmp.gm_params ref_ 1 p1 }
      else
        pure gmp
    gmRefLoop hdr k (ref_ + 1) gmp

/-- `obu::parse_global_motion_params` (`src/obu.rs:1289`). -/
def parse_global_motion_params (hdr : FrameHeader) : BitM GlobalMotionParams := do
  let gmp : GlobalMotionParams := {}
  let gmp := { gmp with
    gm_type := fun r =>
      if LAST_FRAME ≤ r ∧ r ≤ ALTREF_FRAME then IDENTITY else gmp.gm_type r,
    gm_params := fun r i =>
      if LAST_FRAME ≤ r ∧ r ≤ ALTREF_FRAME ∧ i ≤ 5 then
        (if i % 3 = 2 then (2 ^ WARPEDMODEL_PREC_BITS : Int) else 0)
      else gmp.gm_params r i }
  if hdr.frame_is_intra then
    return gmp
  else
    gmRefLoop hdr REFS_PER_FRAME LAST_FRAME gmp

/-- `obu::setup_past_independence` (`src/obu.rs:1563`). -/
def setup_past_independence (hdr : FrameHeader) : FrameHeader :=
  let hdr := { hdr with
    global_motion_params := { hdr.global_motion_params with
      gm_type := fun r =>
        if LAST_FRAME ≤ r ∧ r ≤ ALTREF_FRAME then IDENTITY
        else hdr.global_motion_params.gm_type r,
      prev_gm_params := fun r i =>
        if LAST_FRAME ≤ r ∧ r ≤ ALTREF_FRAME ∧ i ≤ 5 then
          (if i % 3 = 2 then (2 ^ WARPEDMODEL_PREC_BITS : Int) else 0)
        else hdr.global_motion_params.prev_gm_params r i } }
  { hdr with
    loop_filter_params := { hdr.loop_filter_params with
      loop_filter_delta_enabled := true,
      loop_filter_ref_deltas := fun i =>
        if i = INTRA_FRAME then 1 else if i = LAST_FRAME then 0
        else if i = LAST2_FRAME then 0 else if i = LAST3_FRAME then 0
        else if i = BWDREF_FRAME then 0 else if i = GOLDEN_FRAME then -1
        else if i = ALTREF_FRAME then -1 else if i = ALTREF2_FRAME then -1
        else hdr.loop_filter_params.loop_filter_ref_deltas i,
      loop_filter_mode_deltas := fun i =>
        if i < 2 then 0 else hdr.loop_filter_params.loop_filter_mode_deltas i } }

/-- `obu::load_previous` (`src/obu.rs:1590`). -/
def load_previous (hdr : FrameHeader) (rf : RefFrameManager) : FrameHeader :=
  let prev_frame := hdr.ref_frame_idx hdr.primary_ref_frame
  { hdr with
    global_motion_params := { hdr.global_motion_params with
      prev_gm_params := fun r i => rf.saved_gm_params prev_frame r i } }

/-- Read `n` pairs `f(8), f(8)` into the two point lists of
`parse_film_grain_params`. -/
def readPointPairs : Nat → List Nat → List Nat → BitM (List Nat × List Nat)
  | 0, va, sc => pure (va, sc)
  | n + 1, va, sc => do
    let v ← BitReader.f 8
    let s ← BitReader.f 8
    readPointPairs n (va ++ [v]) (sc ++ [s])

/-- Read `n` bytes `f(8)` into a coefficient list of
`parse_film_grain_params`. -/
def readBytes : Nat → List Nat → BitM (List Nat)
  | 0, acc => pure acc
  | n + 1, acc => do
    let v ← BitReader.f 8
    readBytes n (acc ++ [v])

/--
`obu::parse_film_grain_params` (`src/obu.rs:1441`).  NOTE: the reset guard
is transcribed exactly as the source has it — `!sh.film_grain_params_present
|| (!fh.show_frame && fh.showable_frame)` — although the AV1 specification's
condition is `(!show_frame && !showable_frame)`.
-/
def parse_film_grain_params (sh : SequenceHeader) (hdr : FrameHeader) :
    BitM FilmGrainParams := do
  let fgp : FilmGrainParams := {}
  if ¬sh.film_grain_params_present ∨ (¬hdr.show_frame ∧ hdr.showable_frame) then
    -- reset_grain_params()
    return fgp
  else do
  let apply_grain ← BitReader.fBool 1
  let fgp := { fgp with apply_grain := apply_grain }
  if ¬fgp.apply_grain then
    -- reset_grain_params()
    return fgp
  else do
  let grain_seed ← BitReader.f 16
  let fgp := { fgp with grain_seed := grain_seed }
  let update_grain ← if hdr.frame_type = INTER_FRAME then BitReader.fBool 1 else pure true
  let fgp := { fgp with update_grain := update_grain }
  let fgp : FilmGrainParams ←
    if ¬fgp.update_grain then do
      let idx ← BitReader.f 3
      let fgp := { fgp with film_grain_params_ref_idx := idx }
      BitM.assert (fgp.film_grain_params_ref_idx ≤ REFS_PER_FRAME - 1)
      pure fgp
    else
      pure fgp
  let nyp ← BitReader.f 4
  let fgp := { fgp with num_y_points := nyp }
  BitM.assert (fgp.num_y_points ≤ 14)
  let (pyv, pys) ← readPointPairs fgp.num_y_points [] []
  let fgp := { fgp with point_y_value := pyv, point_y_scaling := pys }
  let cc := sh.color_config
  let csfl ← if cc.mono_chrome then pure false else BitReader.fBool 1
  let fgp := { fgp with chroma_scaling_from_luma := csfl }
  let fgp : FilmGrainParams ←
    if sh.color_config.mono_chrome ∨ fgp.chroma_scaling_from_luma ∨
        (cc.subsampling_x = 1 ∧ cc.subsampling_y = 1 ∧ fgp.num_y_points = 0) then
      pure { fgp with num_cb_points := 0, num_cr_points := 0 }
    else do
      let ncb ← BitReader.f 4
      let (cbv, cbs) ← readPointPairs ncb [] []
      let ncr ← BitReader.f 4
      let (crv, crs) ← readPointPairs ncr [] []
      pure { fgp with
        num_cb_points := ncb, point_cb_value := cbv, point_cb_scaling := cbs,
        num_cr_points := ncr, point_cr_value := crv, point_cr_scaling := crs }
  BitM.assert (fgp.num_cb_points ≤ 10)
  BitM.assert (fgp.num_cr_points ≤ 10)
  let gsm8 ← BitReader.f 2
  let acl ← BitReader.f 2
  let fgp := { fgp with grain_scaling_minus_8 := gsm8, ar_coeff_lag := acl }
  let num_pos_luma := 2 * fgp.ar_coeff_lag * (fgp.ar_coeff_lag + 1)
  let (num_pos_chroma, fgp) ←
    if fgp.num_y_points ≠ 0 then do
      let ys ← readBytes num_pos_luma []
      pure (num_pos_luma + 1, { fgp with ar_coeffs_y_plus_128 := ys })
    else
      pure (num_pos_luma, fgp)
  let fgp : FilmGrainParams ←
    if fgp.chroma_scaling_from_luma ∨ fgp.num_cb_points ≠ 0 then do
      let cbs ← readBytes num_pos_chroma []
      pure { fgp with ar_coeffs_cb_plus_128 := cbs }
    else
      pure fgp
  let fgp : FilmGrainParams ←
    if fgp.chroma_scaling_from_luma ∨ fgp.num_cr_points ≠ 0 then do
      let crs ← readBytes num_pos_chroma []
      pure { fgp with ar_coeffs_cr_plus_128 := crs }
    else
      pure fgp
  let acs6 ← BitReader.f 2
  let gss ← BitReader.f 2
  let fgp := { fgp with ar_coeff_shift_minus_6 := acs6, grain_scale_shift := gss }
  let fgp : FilmGrainParams ←
    if fgp.num_cb_points ≠ 0 then do
      let m ← BitReader.f 8
      let lm ← BitReader.f 8
      let o ← BitReader.f 9
      pure { fgp with cb_mult := m, cb_luma_mult := lm, cb_offset := o }
    else
      pure fgp
  let fgp : FilmGrainParams ←
    if fgp.num_cr_points ≠ 0 then do
      let m ← BitReader.f 8
      let lm ← BitReader.f 8
      let o ← BitReader.f 9
      pure { fgp with cr_mult := m, cr_luma_mult := lm, cr_offset := o }
    else
      pure fgp
  let ov ← BitReader.fBool 1
  let ctr ← BitReader.fBool 1
  return { fgp with overlap_flag := ov, clip_to_restricted_range := ctr }

/--
The `show_existing_frame` body of `parse_frame_header`
(`src/obu.rs:1805-1821`): reads the map index and optional display id,
copies the slot's frame type, forces all-ones refresh flags for a Key slot;
`temporal_point_info()` and `load_grain_params()` are `unimplemented!()`.
-/
def phShowExisting (sh : SequenceHeader) (rf : RefFrameManager) (id_len : Nat)
    (hdr : FrameHeader) : BitM FrameHeader := do
  let idx ← BitReader.f 3
  let hdr := { hdr with frame_to_show_map_idx := idx }
  if sh.decoder_model_info_present_flag ∧ ¬sh.timing_info.equal_picture_interval then
    BitM.unsupported
  else do
    let hdr := { hdr with refresh_frame_flags := 0 }
    let hdr : FrameHeader ←
      if sh.frame_id_numbers_present_flag then do
        let dfi ← BitReader.f id_len
        pure { hdr with display_frame_id := dfi }
      else
        pure hdr
    let hdr := { hdr with frame_type := rf.ref_frame_type hdr.frame_to_show_map_idx }
    let hdr :=
      if hdr.frame_type = KEY_FRAME then { hdr with refresh_frame_flags := 255 } else hdr
    if sh.film_grain_params_present then
      BitM.unsupported
    else
      pure hdr

/--
`parse_frame_header` lines 1797-1842: reduced-still-picture defaults, the
`show_existing_frame` early return (`.inl`), or the
frame-type/show/showable/error-resilient prefix (`.inr`).
-/
def phStart (sh : SequenceHeader) (rf : RefFrameManager) (id_len : Nat) :
    BitM (FrameHeader ⊕ FrameHeader) := do
  let hdr : FrameHeader := {}
  if sh.reduced_still_picture_header then
    pure (.inr { hdr with
      show_existing_frame := false, frame_type := KEY_FRAME,
      frame_is_intra := true, show_frame := true, showable_frame := false })
  else do
    let sef ← BitReader.fBool 1
    let hdr := { hdr with show_existing_frame := sef }
    if hdr.show_existing_frame then do
      let hdr ← phShowExisting sh rf id_len hdr
      pure (.inl hdr)
    else do
      let ft ← BitReader.f 2
      let hdr := { hdr with frame_type := ft }
      let hdr := { hdr with frame_is_intra :=
        (hdr.frame_type == INTRA_ONLY_FRAME) || (hdr.frame_type == KEY_FRAME) }
      let sf ← BitReader.fBool 1
      let hdr := { hdr with show_frame := sf }
      if hdr.show_frame ∧ sh.decoder_model_info_present_flag ∧
          ¬sh.timing_info.equal_picture_interval then
        BitM.unsupported
      else do
        let hdr : FrameHeader ←
          if hdr.show_frame then
            pure { hdr with showable_frame := hdr.frame_type != KEY_FRAME }
          else do
            let sb ← BitReader.fBool 1
            pure { hdr with showable_frame := sb }
        let hdr : FrameHeader ←
          if hdr.frame_type = SWITCH_FRAME ∨ (hdr.frame_type = KEY_FRAME ∧ hdr.show_frame) then
            pure { hdr with error_resilient_mode := true }
          else do
            let erm ← BitReader.fBool 1
            pure { hdr with error_resilient_mode := erm }
        pure (.inr hdr)

/--
`parse_frame_header` up to and including the Key+show-frame reset
(`src/obu.rs:1786-1851`): the `assert!(id_len <= 16)`
(`assert!(NUM_REF_FRAMES <= 8)` holds trivially), the header prefix, and —
exactly when `frame_type == KEY_FRAME && show_frame` — the loop clearing
every manager slot (`ref_valid[i] = false`, `ref_order_hint[i] = 0`) and
`order_hints[LAST_FRAME + i] = 0`.  The manager is returned in all
outcomes, mirroring the `&mut` reference of the source.
-/
def phPartA (sh : SequenceHeader) (id_len : Nat) (rf : RefFrameManager)
    (bits : List Bool) : POut ((FrameHeader ⊕ FrameHeader) × List Bool) × RefFrameManager :=
  if ¬(id_len ≤ 16) then (.panicked, rf)
  else
    match phStart sh rf id_len bits with
    | .ok (.inl hdr, rest) => (.ok (.inl hdr, rest), rf)
    | .ok (.inr hdr, rest) =>
      if hdr.frame_type = KEY_FRAME ∧ hdr.show_frame then
        (.ok (.inr { hdr with
            order_hints := fun i =>
              if LAST_FRAME ≤ i ∧ i < LAST_FRAME + REFS_PER_FRAME then 0
              else hdr.order_hints i }, rest),
          { rf with
            ref_valid := fun i => if i < NUM_REF_FRAMES then false else rf.ref_valid i,
            ref_order_hint := fun i => if i < NUM_REF_FRAMES then 0 else rf.ref_order_hint i })
      else
        (.ok (.inr hdr, rest), rf)
    | .fail => (.fail, rf)
    | .panicked => (.panicked, rf)
    | .unsupported => (.unsupported, rf)

/--
`parse_frame_header` lines 1852-1869: `disable_cdf_update`,
screen-content tools, `force_integer_mv`.
-/
def phB1 (sh : SequenceHeader) (hdr : FrameHeader) : BitM FrameHeader := do
  let dcu ← BitReader.fBool 1
  let hdr := { hdr with disable_cdf_update := dcu }
  let hdr : FrameHeader ←
    if sh.seq_force_screen_content_tools = SELECT_SCREEN_CONTENT_TOOLS then do
      let asct ← BitReader.fBool 1
      pure { hdr with allow_screen_content_tools := asct }
    else
      pure { hdr with allow_screen_content_tools := sh.seq_force_screen_content_tools != 0 }
  let hdr : FrameHeader ←
    if hdr.allow_screen_content_tools then
      if sh.seq_force_integer_mv = SELECT_INTEGER_MV then do
        let fim ← BitReader.fBool 1
        pure { hdr with force_integer_mv := fim }
      else
        pure { hdr with force_integer_mv := sh.seq_force_integer_mv != 0 }
    else
      pure { hdr with force_integer_mv := false }
  if hdr.frame_is_intra then
    pure { hdr with force_integer_mv := true }
  else
    pure hdr

/--
`parse_frame_header` lines 1877-1900: `frame_size_override_flag`,
`order_hint`, `primary_ref_frame`, the decoder-model `unimplemented!()`,
and `refresh_frame_flags` (forced to all-ones for Switch and Key+show).
-/
def phB2 (sh : SequenceHeader) (hdr : FrameHeader) : BitM FrameHeader := do
  let hdr : FrameHeader ←
    if hdr.frame_type = SWITCH_FRAME then
      pure { hdr with frame_size_override_flag := true }
    else if sh.reduced_still_picture_header then
      pure { hdr with frame_size_override_flag := false }
    else do
      let fso ← BitReader.fBool 1
      pure { hdr with frame_size_override_flag := fso }
  let oh ← BitReader.f sh.order_hint_bits
  let hdr := { hdr with order_hint := oh }
  let hdr : FrameHeader ←
    if hdr.frame_is_intra ∨ hdr.error_resilient_mode then
      pure { hdr with primary_ref_frame := PRIMARY_REF_NONE }
    else do
      let prf ← BitReader.f 3
      pure { hdr with primary_ref_frame := prf }
  if sh.decoder_model_info_present_flag then
    BitM.unsupported
  else do
    let hdr := { hdr with
      allow_high_precision_mv := false, use_ref_frame_mvs := false, allow_intrabc := false }
    if hdr.frame_type = SWITCH_FRAME ∨ (hdr.frame_type = KEY_FRAME ∧ hdr.show_frame) then
      pure { hdr with refresh_frame_flags := 255 }
    else do
      let rff ← BitReader.f 8
      pure { hdr with refresh_frame_flags := rff }

/--
The ref-order-hint mismatch loop (`src/obu.rs:1903-1908`): reads
`f(order_hint_bits)` per slot into the header and invalidates manager
slots whose stored hint differs.
-/
def refOrderHintLoop (sh : SequenceHeader) :
    Nat → Nat → FrameHeader → RefFrameManager → List Bool →
    POut (FrameHeader × List Bool) × RefFrameManager
  | 0, _, hdr, rf, bits => (.ok (hdr, bits), rf)
  | k + 1, i, hdr, rf, bits =>
    match BitReader.f sh.order_hint_bits bits with
    | .ok (v, rest) =>
      let hdr := { hdr with ref_order_hint := upd hdr.ref_order_hint i v }
      let rf :=
        if hdr.ref_order_hint i ≠ rf.ref_order_hint i then
          { rf with ref_valid := upd rf.ref_valid i false }
        else rf
      refOrderHintLoop sh k (i + 1) hdr rf rest
    | .fail => (.fail, rf)
    | .panicked => (.panicked, rf)
    | .unsupported => (.unsupported, rf)

/--
`parse_frame_header` lines 1852-1910: the bit-level reads of `phB1`/`phB2`,
with `current_frame_id` + `mark_ref_frames` between them, and the
error-resilient ref-order-hint invalidation after.  The manager is returned
in all outcomes.
-/
def phPartB (sh : SequenceHeader) (id_len : Nat) (rf : RefFrameManager)
    (hdr : FrameHeader) (bits : List Bool) :
    POut (FrameHeader × List Bool) × RefFrameManager :=
  match phB1 sh hdr bits with
  | .ok (hdr, rest) =>
    let step2 : POut (FrameHeader × List Bool) × RefFrameManager :=
      if sh.frame_id_numbers_present_flag then
        match BitReader.f id_len rest with
        | .ok (cfi, rest2) =>
          let hdr := { hdr with current_frame_id := cfi }
          (.ok (hdr, rest2), rf.mark_ref_frames id_len sh hdr)
        | .fail => (.fail, rf)
        | .panicked => (.panicked, rf)
        | .unsupported => (.unsupported, rf)
      else
        (.ok ({ hdr with current_frame_id := 0 }, rest), rf)
    match step2 with
    | (.ok (hdr, rest2), rf) =>
      (match phB2 sh hdr rest2 with
       | .ok (hdr, rest3) =>
         if (¬hdr.frame_is_intra ∨ hdr.refresh_frame_flags ≠ 255) ∧
             (hdr.error_resilient_mode ∧ sh.enable_order_hint) then
           refOrderHintLoop sh NUM_REF_FRAMES 0 hdr rf rest3
         else
           (.ok (hdr, rest3), rf)
       | .fail => (.fail, rf)
       | .panicked => (.panicked, rf)
       | .unsupported => (.unsupported, rf))
    | other => other
  | .fail => (.fail, rf)
  | .panicked => (.panicked, rf)
  | .unsupported => (.unsupported, rf)

/--
The `for i in 0..REFS_PER_FRAME` reference-index loop
(`src/obu.rs:1940-1964`): 3-bit `ref_frame_idx[i]` (unless short
signaling) with the `assert!(rfman.ref_valid[..])`, and per-reference
`delta_frame_id` with the `assert_eq!(expected_frame_id, ..)` conformance
check.  The `expected_frame_id` computation is `u16` in the source,
modeled with Rust release semantics: `f::<u16>` truncates the read value
(`dfi % 65536`, then `+ 1` wrapping), the shift amount of `1u16 << id_len`
is masked modulo 16, and the add-then-subtract wraps modulo `2^16`
(a build with overflow checks panics instead at `id_len = 16`; for
`id_len ≤ 15` the model coincides with exact arithmetic).
-/
def refFrameIdxLoop (sh : SequenceHeader) (id_len : Nat) (rf : RefFrameManager)
    (frame_refs_short_signaling : Bool) :
    Nat → Nat → FrameHeader → BitM FrameHeader
  | 0, _, hdr => pure hdr
  | k + 1, i, hdr => do
    let hdr : FrameHeader ←
      if ¬frame_refs_short_signaling then do
        let rfi ← BitReader.f 3
        let hdr := { hdr with ref_frame_idx := upd hdr.ref_frame_idx i rfi }
        BitM.assert (rf.ref_valid (hdr.ref_frame_idx i) = true)
        pure hdr
      else
        pure hdr
    if sh.frame_id_numbers_present_flag then do
      let dfi ← BitReader.f sh.delta_frame_id_length
      let delta_frame_id := (dfi % 65536 + 1) % 65536
      let two_id := 1 <<< (id_len % 16)
      let expected_frame_id :=
        ((hdr.current_frame_id + two_id + 65536 - delta_frame_id) % 65536) % two_id
      BitM.assert (expected_frame_id = rf.ref_frame_id (hdr.ref_frame_idx i))
      refFrameIdxLoop sh id_len rf frame_refs_short_signaling k (i + 1) hdr
    else
      refFrameIdxLoop sh id_len rf frame_refs_short_signaling k (i + 1) hdr

/--
`parse_frame_header` lines 1911-1984: frame/render size and reference
indices per frame type; `set_frame_refs()` and `frame_size_with_refs()` are
`unimplemented!()`.
-/
def phC1 (sh : SequenceHeader) (id_len : Nat) (rf : RefFrameManager) (hdr : FrameHeader) :
    BitM FrameHeader := do
  if hdr.frame_type = KEY_FRAME then do
    let fs ← parse_frame_size sh hdr
    let rs ← parse_render_size fs
    let hdr := { hdr with frame_size := fs, render_size := rs }
    if hdr.allow_screen_content_tools ∧
        hdr.frame_size.upscaled_width = hdr.frame_size.frame_width then do
      let aib ← BitReader.fBool 1
      pure { hdr with allow_intrabc := aib }
    else
      pure hdr
  else
    if hdr.frame_type = INTRA_ONLY_FRAME then do
      let fs ← parse_frame_size sh hdr
      let rs ← parse_render_size fs
      let hdr := { hdr with frame_size := fs, render_size := rs }
      if hdr.allow_screen_content_tools ∧
          hdr.frame_size.upscaled_width = hdr.frame_size.frame_width then do
        let aib ← BitReader.fBool 1
        pure { hdr with allow_intrabc := aib }
      else
        pure hdr
    else do
      let frame_refs_short_signaling ←
        if ¬sh.enable_order_hint then pure false
        else BitReader.fBool 1
      let hdr : FrameHeader ←
        if frame_refs_short_signaling then do
          let lfi ← BitReader.f 3
          let gfi ← BitReader.f 3
          let _hdr := { hdr with last_frame_idx := lfi, gold_frame_idx := gfi }
          BitM.unsupported
        else
          pure hdr
      let hdr ← refFrameIdxLoop sh id_len rf frame_refs_short_signaling REFS_PER_FRAME 0 hdr
      let hdr : FrameHeader ←
        if hdr.frame_size_override_flag ∧ ¬hdr.error_resilient_mode then
          BitM.unsupported
        else do
          let fs ← parse_frame_size sh hdr
          let rs ← parse_render_size fs
          pure { hdr with frame_size := fs, render_size := rs }
      let hdr : FrameHeader ←
        if hdr.force_integer_mv then
          pure { hdr with allow_high_precision_mv := false }
        else do
          let ahpm ← BitReader.fBool 1
          pure { hdr with allow_high_precision_mv := ahpm }
      let ifl ← read_interpolation_filter
      let imms ← BitReader.fBool 1
      let hdr := { hdr with interpolation_filter := ifl, is_motion_mode_switchable := imms }
      if hdr.error_resilient_mode ∨ ¬sh.enable_ref_frame_mvs then
        pure { hdr with use_ref_frame_mvs := false }
      else do
        let urfm ← BitReader.fBool 1
        pure { hdr with use_ref_frame_mvs := urfm }

/--
`parse_frame_header` lines 1985-2010: order-hints copy for inter frames,
`disable_frame_end_update_cdf`, and `setup_past_independence` /
`load_previous`.
-/
def phC2 (sh : SequenceHeader) (rf : RefFrameManager) (hdr : FrameHeader) :
    BitM FrameHeader := do
  let hdr :=
    if ¬hdr.frame_is_intra then
      { hdr with
        order_hints := fun r =>
          if LAST_FRAME ≤ r ∧ r < LAST_FRAME + REFS_PER_FRAME then
            rf.ref_order_hint (hdr.ref_frame_idx (r - LAST_FRAME))
          else hdr.order_hints r }
    else hdr
  let hdr : FrameHeader ←
    if sh.reduced_still_picture_header ∨ hdr.disable_cdf_update then
      pure { hdr with disable_frame_end_update_cdf := true }
    else do
      let dfeuc ← BitReader.fBool 1
      pure { hdr with disable_frame_end_update_cdf := dfeuc }
  if hdr.primary_ref_frame = PRIMARY_REF_NONE then
    pure (setup_past_independence hdr)
  else
    pure (load_previous hdr rf)

/--
`parse_frame_header` lines 2012-2031: tile info through loop restoration
(`coded_lossless` is hard-coded `false` in the source — "assume lossy").
-/
def phC3 (sh : SequenceHeader) (hdr : FrameHeader) : BitM FrameHeader := do
  let ti ← parse_tile_info sh hdr.frame_size
  let hdr := { hdr with tile_info := ti }
  let qp ← parse_quantization_params sh.color_config
  let hdr := { hdr with quantization_params := qp }
  let sp ← parse_segmentation_params hdr
  let hdr := { hdr with segmentation_params := sp }
  let dqp ← parse_delta_q_params hdr.quantization_params
  let hdr := { hdr with delta_q_params := dqp }
  let dlfp ← parse_delta_lf_params hdr
  let hdr := { hdr with delta_lf_params := dlfp }
  let hdr := { hdr with coded_lossless := false }
  let hdr := { hdr with all_lossless :=
    hdr.coded_lossless && (hdr.frame_size.frame_width == hdr.frame_size.upscaled_width) }
  let lfp ← parse_loop_filter_params sh.color_config hdr
  let hdr := { hdr with loop_filter_params := lfp }
  let cp ← parse_cdef_params sh hdr
  let hdr := { hdr with cdef_params := cp }
  let lrp ← parse_lr_params sh hdr
  pure { hdr with lr_params := lrp }

/--
`parse_frame_header` lines 2032-2051: tx mode, `frame_reference_mode()`,
skip mode, warped motion, reduced tx set, global motion, film grain.
-/
def phC4 (sh : SequenceHeader) (rf : RefFrameManager) (hdr : FrameHeader) :
    BitM FrameHeader := do
  let txm ← read_tx_mode hdr
  let hdr := { hdr with tx_mode := txm }
  let hdr : FrameHeader ←
    if hdr.frame_is_intra then
      pure { hdr with reference_select := false }
    else do
      let rsel ← BitReader.fBool 1
      pure { hdr with reference_select := rsel }
  let smp ← parse_skip_mode_params sh hdr rf
  let hdr := { hdr with skip_mode_params := smp }
  let hdr : FrameHeader ←
    if hdr.frame_is_intra ∨ hdr.error_resilient_mode ∨ ¬sh.enable_warped_motion then
      pure { hdr with allow_warped_motion := false }
    else do
      let awm ← BitReader.fBool 1
      pure { hdr with allow_warped_motion := awm }
  let rts ← BitReader.fBool 1
  let hdr := { hdr with reduced_tx_set := rts }
  let gmp ← parse_global_motion_params hdr
  let hdr := { hdr with global_motion_params := gmp }
  let fgp ← parse_film_grain_params sh hdr
  pure { hdr with film_grain_params := fgp }

/-- `parse_frame_header` lines 1911-2051: only reads the manager. -/
def phPartC (sh : SequenceHeader) (id_len : Nat) (rf : RefFrameManager) (hdr : FrameHeader) :
    BitM FrameHeader := do
  let hdr ← phC1 sh id_len rf hdr
  let hdr ← phC2 sh rf hdr
  let hdr ← phC3 sh hdr
  phC4 sh rf hdr

/--
`obu::parse_frame_header` (`src/obu.rs:1780`): the parse outcome together
with the manager, which — like the `&mut` reference in the source — keeps
any mutations already applied when the parse fails partway.
-/
def parse_frame_header (sh : SequenceHeader) (rf : RefFrameManager) (bits : List Bool) :
    POut (FrameHeader × List Bool) × RefFrameManager :=
  let id_len := if sh.frame_id_numbers_present_flag then
    sh.additional_frame_id_length + sh.delta_frame_id_length else 0
  match phPartA sh id_len rf bits with
  | (.ok (.inl hdr, rest), rf₁) => (.ok (hdr, rest), rf₁)
  | (.ok (.inr hdr, rest), rf₁) =>
    (match phPartB sh id_len rf₁ hdr rest with
     | (.ok (hdr₂, rest₂), rf₂) =>
       (match phPartC sh id_len rf₂ hdr₂ rest₂ with
        | .ok (hdr₃, rest₃) => (.ok (hdr₃, rest₃), rf₂)
        | .fail => (.fail, rf₂)
        | .panicked => (.panicked, rf₂)
        | .unsupported => (.unsupported, rf₂))
     | (.fail, rf₂) => (.fail, rf₂)
     | (.panicked, rf₂) => (.panicked, rf₂)
     | (.unsupported, rf₂) => (.unsupported, rf₂))
  | (.fail, rf₁) => (.fail, rf₁)
  | (.panicked, rf₁) => (.panicked, rf₁)
  | (.unsupported, rf₁) => (.unsupported, rf₁)

/-- Header projection of a `parse_frame_header` success. -/
def phFh (r : POut (FrameHeader × List Bool) × RefFrameManager) : Option FrameHeader :=
  match r.1 with
  | .ok (hdr, _) => some hdr
  | _ => none

/-!
## Specification predicate for bit-level parsers

`BitM.Sat m P` says every successful run of `m` returns a value
satisfying `P`.  It is the workhorse for the frame-header preservation
lemmas below.
-/

def BitM.Sat {α : Type} (m : BitM α) (P : α → Prop) : Prop :=
  ∀ bits a r, m bits = .ok (a, r) → P a

/-- The three frame-header fields `parse_frame_header` fixes in its prefix
and never reassigns: frame type, show flag, show-existing flag. -/
def presFS (a b : FrameHeader) : Prop :=
  a.frame_type = b.frame_type ∧ a.show_frame = b.show_frame ∧
    a.show_existing_frame = b.show_existing_frame

/-- `presFS` plus preservation of `refresh_frame_flags`. -/
def presFSR (a b : FrameHeader) : Prop :=
  presFS a b ∧ a.refresh_frame_flags = b.refresh_frame_flags

/-! ## Concrete instances for the frame-header claims -/

/-- Sequence header: 64×64 stills, everything else at its default. -/
def shC5 : SequenceHeader := { max_frame_width := 64, max_frame_height := 64 }

/-- Manager whose eight slots are all valid with order hint 9. -/
def rfC5 : RefFrameManager :=
  { RefFrameManager.new with
                          ref_valid := fun _ => true
                          ref_order_hint := fun _ => 9 }

/--
A complete 47-bit Key + no-show frame header for `shC5`:
`show_existing(0) frame_type(00) show(0) showable(1) error_resilient(0)
disable_cdf_update(1) frame_size_override(0) refresh_frame_flags(11111111)
render_size_different(0) uniform_tile_spacing(1)` followed by 29 zero bits
(quantization, segmentation, loop filter, tx mode, reduced tx set).
The refresh flags are read from the stream as `0xFF`.
-/
def c5bits : List Bool :=
  [false, false, false, false, true, false, true, false] ++ List.replicate 8 true ++
    [false, true] ++ List.replicate 29 false

/--
A complete 37-bit Key + show frame header for `shC5`:
`show_existing(0) frame_type(00) show(1) disable_cdf_update(1)
frame_size_override(0) render_size_different(0) uniform_tile_spacing(1)`
followed by 29 zero bits.  `showable`, `error_resilient_mode` and
`refresh_frame_flags` are forced without reading bits on this path.
-/
def c5wbits : List Bool :=
  [false, false, false, true, true, false, false, true] ++ List.replicate 29 false

/-- The Key + show parse used by the C5 witness. -/
def c5res : POut (FrameHeader × List Bool) × RefFrameManager :=
  parse_frame_header shC5 rfC5 c5wbits

/-- Header of the C5 witness parse. -/
def c5hdr : FrameHeader := (phFh c5res).getD {}

/-- Leftover bits of the C5 witness parse. -/
def c5rest : List Bool :=
  match c5res.1 with
  | .ok (_, r) => r
  | _ => []

/-- The Key + no-show parse used by the C5 counterexample. -/
def c5nres : POut (FrameHeader × List Bool) × RefFrameManager :=
  parse_frame_header shC5 RefFrameManager.new c5bits

/-- Header of the C5 counterexample parse. -/
def c5nhdr : FrameHeader := (phFh c5nres).getD {}

/-- Default sequence header (as used for the atomicity counterexample). -/
def shC10 : SequenceHeader := {}

/-- Manager whose eight slots are all valid with order hint 5. -/
def rfC10 : RefFrameManager :=
  { RefFrameManager.new with
                          ref_valid := fun _ => true
                          ref_order_hint := fun _ => 5 }

/-- A 4-bit truncated frame header: `show_existing(0) frame_type(00) show(1)`
— the stream ends right before `disable_cdf_update`. -/
def c10bits : List Bool := [false, false, false, true]

/--
A sequence-header bitstream prefix whose operating-points count field is
1, i.e. `operating_points_cnt = 2`: `seq_profile(000) still_picture(0)
reduced_still_picture_header(0) timing_info_present(0)
initial_display_delay_present(0) operating_points_cnt_minus_1(00001)`.
-/
def c8bits : List Bool :=
  List.replicate 7 false ++ [false, false, false, false, true]

/-- Sequence header with film grain enabled. -/
def shFG : SequenceHeader := { film_grain_params_present := true }

/-- Frame header that is neither shown nor showable. -/
def fhFGa : FrameHeader := { show_frame := false, showable_frame := false }

/-- Frame header that is not shown but showable. -/
def fhFGb : FrameHeader := { show_frame := false, showable_frame := true }

/-! # Theorems -/

theorem ite_false_else_eq_true {c : Prop} [Decidable c] {v : Bool} :
    ((if c then false else v) = true) ↔ ¬c ∧ v = true := by
  by_cases h : c <;> simp [h]

theorem BitM.bind_def {α β : Type} (m : BitM α) (g : α → BitM β) :
    m >>= g = BitM.bind m g := rfl

theorem BitM.pure_def {α : Type} (a : α) : (Pure.pure a : BitM α) = BitM.pure a := rfl

theorem BitM.bind_eq_ok {α β : Type} (m : BitM α) (g : α → BitM β) (bits : List Bool)
    (b : β) (r₂ : List Bool) :
    BitM.bind m g bits = .ok (b, r₂) ↔
      ∃ a r₁, m bits = .ok (a, r₁) ∧ g a r₁ = .ok (b, r₂) := by
  unfold BitM.bind
  cases h : m bits with
  | ok p =>
    obtain ⟨a, r₁⟩ := p
    constructor
    · intro hg
      exact ⟨a, r₁, rfl, hg⟩
    · rintro ⟨a', r₁', he, hg⟩
      cases he
      exact hg
  | fail => simp
  | panicked => simp
  | unsupported => simp

theorem BitM.bind_ok {α β : Type} (m : BitM α) (g : α → BitM β) (bits r : List Bool)
    (a : α) (h : m bits = .ok (a, r)) : BitM.bind m g bits = g a r := by
  unfold BitM.bind
  rw [h]

theorem BitM.pure_eq_ok {α : Type} (a : α) (bits : List Bool) (b : α) (r : List Bool) :
    BitM.pure a bits = .ok (b, r) ↔ a = b ∧ bits = r := by
  unfold BitM.pure
  constructor
  · intro h
    cases h
    exact ⟨rfl, rfl⟩
  · rintro ⟨rfl, rfl⟩
    rfl

namespace BitReader

theorem fGo_ok (n x : Nat) (bits : List Bool) (h : n ≤ bits.length) :
    fGo n x bits = .ok (bitsToNat x (bits.take n), bits.drop n) := by
  induction n generalizing x bits with
  | zero => simp [fGo, bitsToNat]
  | succ n ih =>
    cases bits with
    | nil => simp at h
    | cons b rest =>
      simp only [List.length_cons, Nat.succ_le_succ_iff] at h
      simp [fGo, bitsToNat, ih _ _ h]

theorem fGo_fail (n : Nat) (x : Nat) (bits : List Bool) (h : bits.length < n) :
    fGo n x bits = .fail := by
  induction n generalizing x bits with
  | zero => simp at h
  | succ n ih =>
    cases bits with
    | nil => rfl
    | cons b rest =>
      simp only [List.length_cons, Nat.succ_lt_succ_iff] at h
      simp [fGo, ih _ _ h]

theorem bitsToNat_lt (x : Nat) (l : List Bool) : bitsToNat x l < (x + 1) * 2 ^ l.length := by
  induction l generalizing x with
  | nil => simp [bitsToNat]
  | cons b rest ih =>
    have h := ih (2 * x + (if b then 1 else 0))
    simp only [bitsToNat, List.length_cons, pow_succ]
    calc bitsToNat (2 * x + (if b then 1 else 0)) rest
        < (2 * x + (if b then 1 else 0) + 1) * 2 ^ rest.length := h
      _ ≤ (x + 1) * (2 ^ rest.length * 2) := by
          have : 2 * x + (if b then 1 else 0) + 1 ≤ (x + 1) * 2 := by
            cases b <;> simp <;> omega
          calc (2 * x + (if b then 1 else 0) + 1) * 2 ^ rest.length
              ≤ (x + 1) * 2 * 2 ^ rest.length :=
                Nat.mul_le_mul_right _ this
            _ = (x + 1) * (2 ^ rest.length * 2) := by ring
      _ = (x + 1) * (2 ^ rest.length * 2) := rfl

theorem f_ok (n : Nat) (bits : List Bool) (h32 : n ≤ 32) (h : n ≤ bits.length) :
    f n bits = .ok (bitsToNat 0 (bits.take n), bits.drop n) := by
  simp [f, h32, fGo_ok n 0 bits h]

theorem f_ok_lt (n : Nat) (bits : List Bool) (v : Nat) (rest : List Bool)
    (h : f n bits = .ok (v, rest)) : v < 2 ^ n ∧ rest = bits.drop n ∧ n ≤ bits.length := by
  unfold f at h
  by_cases h32 : n ≤ 32
  · simp only [h32, if_true] at h
    by_cases hlen : n ≤ bits.length
    · rw [fGo_ok n 0 bits hlen] at h
      cases h
      refine ⟨?_, rfl, hlen⟩
      have := bitsToNat_lt 0 (bits.take n)
      have hl : (bits.take n).length = n := by
        simp [List.length_take, Nat.min_eq_left hlen]
      rw [hl] at this
      simpa using this
    · rw [fGo_fail n 0 bits (by omega)] at h
      cases h
  · simp [h32] at h

theorem floor_log2_go_spec (x : Nat) (hx : x ≠ 0) :
    ∀ s : Nat, floor_log2_go x s = s + Nat.log2 x + 1 := by
  induction x using Nat.strong_induction_on with
  | _ x ih =>
    intro s
    rw [floor_log2_go, if_neg hx]
    by_cases h2 : 2 ≤ x
    · have hx2 : x >>> 1 ≠ 0 := by
        simp only [Nat.shiftRight_eq_div_pow, pow_one]
        omega
      have hlt : x >>> 1 < x := by
        simp only [Nat.shiftRight_eq_div_pow, pow_one]
        omega
      rw [ih _ hlt hx2 (s + 1)]
      conv_rhs => rw [Nat.log2]
      simp only [ge_iff_le, h2, if_true, Nat.shiftRight_eq_div_pow, pow_one]
      omega
    · have hx1 : x = 1 := by omega
      subst hx1
      have h10 : (1 : Nat) >>> 1 = 0 := rfl
      rw [h10, floor_log2_go]
      simp [Nat.log2]

theorem floor_log2_eq_log2 (x : Nat) (hx : x ≠ 0) : floor_log2 x = Nat.log2 x := by
  unfold floor_log2
  rw [floor_log2_go_spec x hx 0]
  omega

end BitReader

theorem leb128Loop_all_cont (k : Nat) :
    ∀ (i value n : Nat) (bs : List Nat), k ≤ bs.length →
      (∀ b ∈ bs.take k, Nat.testBit b 7) →
      ∃ v, leb128Loop k i value n bs = .ok (v, n + k, bs.drop k) := by
  induction k with
  | zero =>
    intro i value n bs _ _
    exact ⟨value, rfl⟩
  | succ k ih =>
    intro i value n bs hlen hbits
    cases bs with
    | nil => simp at hlen
    | cons b rest =>
      have hb : Nat.testBit b 7 := hbits b (by simp)
      have hband : b &&& 0x80 = 0x80 := by
        have : b &&& 2 ^ 7 = 2 ^ 7 := by
          rw [Nat.and_two_pow]
          simp [hb]
        simpa using this
      rw [leb128Loop]
      simp only [hband, ne_eq, not_true_eq_false, if_false]
      have hrest : ∀ x ∈ rest.take k, Nat.testBit x 7 := by
        intro x hx
        exact hbits x (by simp [hx])
      obtain ⟨v, hv⟩ := ih (i + 1) (value ||| ((b &&& 0x7f) <<< (i * 7))) (n + 1) rest
        (by simpa using hlen) hrest
      refine ⟨v, ?_⟩
      rw [hv]
      have hn : n + 1 + k = n + (k + 1) := by omega
      rw [hn, List.drop_succ_cons]

theorem leb128Loop_count_le (k : Nat) :
    ∀ (i value n : Nat) (bs : List Nat) (v m : Nat) (rest : List Nat),
      leb128Loop k i value n bs = .ok (v, m, rest) → m ≤ n + k := by
  induction k with
  | zero =>
    intro i value n bs v m rest h
    cases h
    omega
  | succ k ih =>
    intro i value n bs v m rest h
    cases bs with
    | nil =>
      rw [leb128Loop] at h
      cases h
    | cons b bsr =>
      rw [leb128Loop] at h
      by_cases hc : b &&& 0x80 ≠ 0x80
      · rw [if_pos hc] at h
        cases h
        omega
      · rw [if_neg hc] at h
        have := ih (i + 1) (value ||| ((b &&& 0x7f) <<< (i * 7))) (n + 1) bsr v m rest h
        omega

/--
C2 (amended): for any byte source whose first nine bytes all carry the
continuation bit, `leb128` stops after eight bytes and either returns the
value accumulated from them (when it fits 32 bits) or hits the
`assert!(value < 1 << 32)` (a panic); and `leb128` never returns a value of
`2^32` or more, nor a byte count above 8.
-/
theorem leb128_nine_continuation_amended :
    (∀ bs : List Nat, 9 ≤ bs.length → (∀ b ∈ bs.take 9, Nat.testBit b 7) →
      (∃ v, v < 2 ^ 32 ∧ leb128 bs = .ok (8, v, bs.drop 8)) ∨ leb128 bs = .panicked) ∧
    (∀ (bs : List Nat) (n v : Nat) (rest : List Nat),
      leb128 bs = .ok (n, v, rest) → v < 2 ^ 32 ∧ n ≤ 8) := by
  constructor
  · intro bs hlen hbits
    have h8 : ∀ b ∈ bs.take 8, Nat.testBit b 7 := by
      intro b hb
      refine hbits b ?_
      have he : bs.take 8 = (bs.take 9).take 8 := by
        rw [List.take_take]
        norm_num
      rw [he] at hb
      exact List.take_subset _ _ hb
    obtain ⟨v, hv⟩ := leb128Loop_all_cont 8 0 0 0 bs (by omega) h8
    simp only [Nat.zero_add] at hv
    have hres : leb128 bs = if v < 2 ^ 32 then .ok (8, v, bs.drop 8) else .panicked := by
      unfold leb128
      rw [hv, leb128Assert]
    by_cases hlt : v < 2 ^ 32
    · exact Or.inl ⟨v, hlt, by rw [hres, if_pos hlt]⟩
    · exact Or.inr (by rw [hres, if_neg hlt])
  · intro bs n v rest h
    unfold leb128 at h
    cases hl : leb128Loop 8 0 0 0 bs with
    | ok p =>
      obtain ⟨value, m, r⟩ := p
      rw [hl, leb128Assert] at h
      by_cases hlt : value < 2 ^ 32
      · rw [if_pos hlt] at h
        cases h
        exact ⟨hlt, by have := leb128Loop_count_le 8 0 0 0 bs v n rest hl; omega⟩
      · rw [if_neg hlt] at h
        cases h
    | fail => rw [hl, leb128Assert] at h; cases h
    | panicked => rw [hl, leb128Assert] at h; cases h
    | unsupported => rw [hl, leb128Assert] at h; cases h

/--
C2 (counterexample): nine bytes `0x80` — all with the continuation bit set —
do not make the decoder fail: only eight are consumed and the call succeeds,
returning `Leb128Bytes = 8` and value `0` with the ninth byte unread.
-/
theorem leb128_nine_continuation_counterexample :
    leb128 (List.replicate 9 0x80) = .ok (8, 0, [0x80]) := by decide

/--
Witness for the amended C2 theorem at the nine-`0x80` input.
-/
theorem leb128_nine_continuation_amended_witness :
    (∃ v, v < 2 ^ 32 ∧
        leb128 (List.replicate 9 0x80) = .ok (8, v, (List.replicate 9 0x80).drop 8)) ∨
      leb128 (List.replicate 9 0x80) = .panicked :=
  leb128_nine_continuation_amended.1 (List.replicate 9 0x80) (by decide) (by decide)

/--
C3 (amended): under `diff_len < id_len ≤ 15` and `current_frame_id <
2^id_len` — which hold at every parser-reachable call except the
`id_len = 16` corner, where the source's `u16` computation of
`(1 << id_len) + current_frame_id - (1 << diff_len)` overflows (panic with
overflow checks, wrap-around without) and no interval description applies —
`mark_ref_frames` invalidates, in the first branch
(`current_frame_id > 2^diff_len`), exactly the slots whose stored frame-id
is outside the closed interval `[current_frame_id − 2^diff_len,
current_frame_id]` (the source keeps `ref_frame_id = current_frame_id −
2^diff_len` valid: both comparisons are strict), and in the second branch
exactly the slots strictly inside `(current_frame_id, 2^id_len +
current_frame_id − 2^diff_len)`; consequently every still-valid slot's
frame-id lies in the closed window of width `2^diff_len` ending at
`current_frame_id`, modulo `2^id_len`.
-/
theorem mark_ref_frames_amended (r : RefFrameManager) (id_len : Nat)
    (sh : SequenceHeader) (fh : FrameHeader)
    (hdl : sh.delta_frame_id_length < id_len) (hidl : id_len ≤ 15)
    (hC : fh.current_frame_id < 2 ^ id_len) :
    (∀ i, i < NUM_REF_FRAMES →
      (fh.current_frame_id > 2 ^ sh.delta_frame_id_length →
        ((r.mark_ref_frames id_len sh fh).ref_valid i = true ↔
          r.ref_valid i = true ∧
            fh.current_frame_id - 2 ^ sh.delta_frame_id_length ≤ r.ref_frame_id i ∧
            r.ref_frame_id i ≤ fh.current_frame_id)) ∧
      (¬fh.current_frame_id > 2 ^ sh.delta_frame_id_length →
        ((r.mark_ref_frames id_len sh fh).ref_valid i = true ↔
          r.ref_valid i = true ∧
            ¬(fh.current_frame_id < r.ref_frame_id i ∧
              r.ref_frame_id i <
                2 ^ id_len + fh.current_frame_id - 2 ^ sh.delta_frame_id_length)))) ∧
    (∀ i, i < NUM_REF_FRAMES →
      fh.current_frame_id < 2 ^ id_len →
      2 ^ sh.delta_frame_id_length ≤ 2 ^ id_len →
      r.ref_frame_id i < 2 ^ id_len →
      (r.mark_ref_frames id_len sh fh).ref_valid i = true →
      (fh.current_frame_id + 2 ^ id_len - r.ref_frame_id i) % 2 ^ id_len ≤
        2 ^ sh.delta_frame_id_length) := by
  have e1 : (1 : Nat) <<< (sh.delta_frame_id_length % 16) =
      2 ^ sh.delta_frame_id_length := by
    rw [Nat.mod_eq_of_lt (by omega : sh.delta_frame_id_length < 16),
      Nat.shiftLeft_eq, one_mul]
  have e2 : (1 : Nat) <<< (id_len % 16) = 2 ^ id_len := by
    rw [Nat.mod_eq_of_lt (by omega : id_len < 16), Nat.shiftLeft_eq, one_mul]
  have hpow : 2 ^ sh.delta_frame_id_length ≤ 2 ^ id_len :=
    Nat.pow_le_pow_right (by norm_num) (by omega)
  have hpow15 : 2 ^ id_len ≤ 32768 := by
    calc 2 ^ id_len ≤ 2 ^ 15 := Nat.pow_le_pow_right (by norm_num) hidl
      _ = 32768 := by norm_num
  have hwrap : (2 ^ id_len + fh.current_frame_id + 65536 -
      2 ^ sh.delta_frame_id_length) % 65536 =
      2 ^ id_len + fh.current_frame_id - 2 ^ sh.delta_frame_id_length := by
    clear e1 e2
    have h1 : 2 ^ sh.delta_frame_id_length ≤ 2 ^ id_len := hpow
    have h2 : 2 ^ id_len ≤ 32768 := hpow15
    have h3 : fh.current_frame_id < 2 ^ id_len := hC
    clear hpow hpow15 hC hdl hidl
    generalize 2 ^ sh.delta_frame_id_length = X at h1 ⊢
    generalize 2 ^ id_len = Y at h1 h2 h3 ⊢
    omega
  have hvalid_eq : ∀ i, (r.mark_ref_frames id_len sh fh).ref_valid i =
      if i < NUM_REF_FRAMES ∧
          (if fh.current_frame_id > 2 ^ sh.delta_frame_id_length then
            r.ref_frame_id i > fh.current_frame_id ∨
              r.ref_frame_id i < fh.current_frame_id - 2 ^ sh.delta_frame_id_length
          else
            r.ref_frame_id i > fh.current_frame_id ∧
              r.ref_frame_id i <
                2 ^ id_len + fh.current_frame_id - 2 ^ sh.delta_frame_id_length)
      then false
      else r.ref_valid i := by
    intro i
    simp only [RefFrameManager.mark_ref_frames, e1, e2, hwrap]
  constructor
  · intro i hi
    constructor
    · intro hC
      rw [hvalid_eq i, ite_false_else_eq_true]
      simp only [if_pos hC, hi, true_and]
      constructor
      · rintro ⟨hn, hv⟩
        refine ⟨hv, ?_, ?_⟩ <;> omega
      · rintro ⟨hv, h1, h2⟩
        exact ⟨by omega, hv⟩
    · intro hC
      rw [hvalid_eq i, ite_false_else_eq_true]
      simp only [if_neg hC, hi, true_and]
      constructor
      · rintro ⟨hn, hv⟩
        exact ⟨hv, hn⟩
      · rintro ⟨hv, hn⟩
        exact ⟨hn, hv⟩
  · intro i hi hCL hDL hid hvalid
    rw [hvalid_eq i, ite_false_else_eq_true] at hvalid
    obtain ⟨hn, hv⟩ := hvalid
    by_cases hC : fh.current_frame_id > 2 ^ sh.delta_frame_id_length
    · rw [if_pos hC] at hn
      have h1 : ¬r.ref_frame_id i > fh.current_frame_id := fun h => hn ⟨hi, Or.inl h⟩
      have h2 : ¬r.ref_frame_id i < fh.current_frame_id - 2 ^ sh.delta_frame_id_length :=
        fun h => hn ⟨hi, Or.inr h⟩
      have hsub : fh.current_frame_id + 2 ^ id_len - r.ref_frame_id i =
          2 ^ id_len + (fh.current_frame_id - r.ref_frame_id i) := by omega
      rw [hsub, Nat.add_mod_left]
      calc (fh.current_frame_id - r.ref_frame_id i) % 2 ^ id_len
          ≤ fh.current_frame_id - r.ref_frame_id i := Nat.mod_le _ _
        _ ≤ 2 ^ sh.delta_frame_id_length := by omega
    · rw [if_neg hC] at hn
      rcases le_or_lt (r.ref_frame_id i) fh.current_frame_id with hle | hgt
      · have hsub : fh.current_frame_id + 2 ^ id_len - r.ref_frame_id i =
            2 ^ id_len + (fh.current_frame_id - r.ref_frame_id i) := by omega
        rw [hsub, Nat.add_mod_left]
        calc (fh.current_frame_id - r.ref_frame_id i) % 2 ^ id_len
            ≤ fh.current_frame_id - r.ref_frame_id i := Nat.mod_le _ _
          _ ≤ 2 ^ sh.delta_frame_id_length := by omega
      · have hge : ¬r.ref_frame_id i <
            2 ^ id_len + fh.current_frame_id - 2 ^ sh.delta_frame_id_length :=
          fun h => hn ⟨hi, hgt, h⟩
        have hval : fh.current_frame_id + 2 ^ id_len - r.ref_frame_id i ≤
            2 ^ sh.delta_frame_id_length := by omega
        calc (fh.current_frame_id + 2 ^ id_len - r.ref_frame_id i) % 2 ^ id_len
            ≤ fh.current_frame_id + 2 ^ id_len - r.ref_frame_id i := Nat.mod_le _ _
          _ ≤ 2 ^ sh.delta_frame_id_length := hval

/--
C3 (counterexample): with `diff_len = 2`, `current_frame_id = 10` (so the
first branch applies) and slot 0 holding frame-id `6 = 10 − 2^2`, the slot's
id is outside the half-open interval `(current_frame_id − 2^diff_len,
current_frame_id]`, yet the slot stays valid after `mark_ref_frames`.
-/
theorem mark_ref_frames_boundary_counterexample :
    (rfC3.mark_ref_frames 8 shC3 fhC3).ref_valid 0 = true ∧
    rfC3.ref_valid 0 = true ∧
    fhC3.current_frame_id > 2 ^ shC3.delta_frame_id_length ∧
    ¬(fhC3.current_frame_id - 2 ^ shC3.delta_frame_id_length < rfC3.ref_frame_id 0 ∧
        rfC3.ref_frame_id 0 ≤ fhC3.current_frame_id) := by decide

/--
Witness for the amended C3 theorem at slot 0 of the concrete state above.
-/
theorem mark_ref_frames_amended_witness :
    ((rfC3.mark_ref_frames 8 shC3 fhC3).ref_valid 0 = true ↔
      rfC3.ref_valid 0 = true ∧
        fhC3.current_frame_id - 2 ^ shC3.delta_frame_id_length ≤ rfC3.ref_frame_id 0 ∧
        rfC3.ref_frame_id 0 ≤ fhC3.current_frame_id) ∧
    (fhC3.current_frame_id + 2 ^ 8 - rfC3.ref_frame_id 0) % 2 ^ 8 ≤
      2 ^ shC3.delta_frame_id_length :=
  ⟨((mark_ref_frames_amended rfC3 8 shC3 fhC3 (by decide) (by decide) (by decide)).1
      0 (by decide)).1 (by decide),
   (mark_ref_frames_amended rfC3 8 shC3 fhC3 (by decide) (by decide) (by decide)).2
     0 (by decide) (by decide) (by decide) (by decide) (by decide)⟩

/--
C9: `mark_ref_frames` only ever invalidates: a slot valid after the call was
valid before, and no field other than `ref_valid` changes.
-/
theorem mark_ref_frames_only_invalidates (r : RefFrameManager) (id_len : Nat)
    (sh : SequenceHeader) (fh : FrameHeader) :
    (∀ i, (r.mark_ref_frames id_len sh fh).ref_valid i = true → r.ref_valid i = true) ∧
    (r.mark_ref_frames id_len sh fh).ref_frame_id = r.ref_frame_id ∧
    (r.mark_ref_frames id_len sh fh).ref_frame_type = r.ref_frame_type ∧
    (r.mark_ref_frames id_len sh fh).ref_order_hint = r.ref_order_hint ∧
    (r.mark_ref_frames id_len sh fh).saved_gm_params = r.saved_gm_params ∧
    (r.mark_ref_frames id_len sh fh).decode_order = r.decode_order ∧
    (r.mark_ref_frames id_len sh fh).present_order = r.present_order ∧
    (r.mark_ref_frames id_len sh fh).frame_buf = r.frame_buf := by
  refine ⟨?_, rfl, rfl, rfl, rfl, rfl, rfl, rfl⟩
  intro i h
  simp only [RefFrameManager.mark_ref_frames] at h
  by_cases hc : i < NUM_REF_FRAMES ∧
      (if fh.current_frame_id > 1 <<< (sh.delta_frame_id_length % 16) then
        r.ref_frame_id i > fh.current_frame_id ∨
          r.ref_frame_id i < fh.current_frame_id - 1 <<< (sh.delta_frame_id_length % 16)
      else
        r.ref_frame_id i > fh.current_frame_id ∧
          r.ref_frame_id i <
            (1 <<< (id_len % 16) + fh.current_frame_id + 65536 -
              1 <<< (sh.delta_frame_id_length % 16)) % 65536)
  · rw [if_pos hc] at h
    cases h
  · rw [if_neg hc] at h
    exact h

/--
Witness for C9 at the concrete state used for C3.
-/
theorem mark_ref_frames_only_invalidates_witness : rfC3.ref_valid 0 = true :=
  (mark_ref_frames_only_invalidates rfC3 8 shC3 fhC3).1 0 (by decide)

/--
C6: `update_process` increments `decode_order` by exactly 1, and every slot
named by `refresh_frame_flags` becomes valid, stores the header's frame-id,
frame-type and order-hint, copies the global-motion parameters for every
reference frame `LAST_FRAME..=ALTREF_FRAME` and coefficient `0..=5`, and
records the pre-call `decode_order` as its originating decode number.
-/
theorem update_process_spec (r : RefFrameManager) (fh : FrameHeader) :
    (r.update_process fh).decode_order = r.decode_order + 1 ∧
    (∀ i, i < NUM_REF_FRAMES → (fh.refresh_frame_flags >>> i) &&& 1 = 1 →
      (r.update_process fh).ref_valid i = true ∧
      (r.update_process fh).ref_frame_id i = fh.current_frame_id ∧
      (r.update_process fh).ref_frame_type i = fh.frame_type ∧
      (r.update_process fh).ref_order_hint i = fh.order_hint ∧
      (∀ ref j, LAST_FRAME ≤ ref → ref ≤ ALTREF_FRAME → j ≤ 5 →
        (r.update_process fh).saved_gm_params i ref j =
          fh.global_motion_params.gm_params ref j) ∧
      (r.update_process fh).frame_buf i = r.decode_order) := by
  unfold RefFrameManager.update_process
  refine ⟨rfl, ?_⟩
  intro i hi hbit
  refine ⟨by simp [hi, hbit], by simp [hi, hbit], by simp [hi, hbit], by simp [hi, hbit],
    ?_, by simp [hi, hbit]⟩
  intro ref j h1 h2 h3
  simp [hi, hbit, h1, h2, h3]

/--
Witness for C6 at a concrete header refreshing slots 0 and 1.
-/
theorem update_process_spec_witness :
    (RefFrameManager.new.update_process fhC6).ref_valid 0 = true ∧
    (RefFrameManager.new.update_process fhC6).frame_buf 0 = RefFrameManager.new.decode_order := by
  have h := (update_process_spec RefFrameManager.new fhC6).2 0 (by decide) (by decide)
  exact ⟨h.1, h.2.2.2.2.2⟩

/--
C4 (amended): `get_relative_dist` returns `0` when order hints are disabled
and otherwise computes `(d & (m−1)) − (d & m)` for `d = a − b`,
`m = 1 << (order_hint_bits − 1)`; with `order_hint_bits = 3` this maps
`(a, b) = (1, 7)` to `2` (not `−2`) and `(7, 1)` to `−2`.
-/
theorem get_relative_dist_amended (sh : SequenceHeader) :
    (sh.enable_order_hint = false → ∀ a b : Int, get_relative_dist a b sh = 0) ∧
    (sh.enable_order_hint = true → ∀ a b : Int,
      get_relative_dist a b sh =
        intAnd (a - b) (2 ^ (sh.order_hint_bits - 1) - 1) -
          intAnd (a - b) (2 ^ (sh.order_hint_bits - 1))) ∧
    (sh.enable_order_hint = true → sh.order_hint_bits = 3 →
      get_relative_dist 1 7 sh = 2 ∧ get_relative_dist 7 1 sh = -2) := by
  refine ⟨?_, ?_, ?_⟩
  · intro h a b
    simp [get_relative_dist, h]
  · intro h a b
    simp [get_relative_dist, h]
  · intro h hb
    unfold get_relative_dist
    rw [h, hb]
    constructor
    · norm_num
      decide
    · norm_num
      decide

/--
C4 (counterexample): with order hints enabled and `order_hint_bits = 3`,
`get_relative_dist(1, 7)` is `2`, not `−2` as the claim states.
-/
theorem get_relative_dist_counterexample :
    get_relative_dist 1 7 shC4 = 2 ∧ ¬get_relative_dist 1 7 shC4 = -2 := by decide

/--
Witness for the amended C4 theorem at the concrete sequence header.
-/
theorem get_relative_dist_amended_witness :
    get_relative_dist 1 7 shC4 = 2 ∧ get_relative_dist 7 1 shC4 = -2 :=
  (get_relative_dist_amended shC4).2.2 rfl rfl

/--
C7: for `n ≥ 1` (a `u32` in the source, hence `n < 2^32`) and a bit stream
holding at least `⌊log2 n⌋ + 1` bits, `ns(n)` succeeds with a value in
`[0, n)` and consumes either `⌊log2 n⌋` bits (when the first `w − 1` bits
fall below `m = 2^w − n`) or `⌊log2 n⌋ + 1` bits (one extra bit otherwise).
-/
theorem ns_range_and_consumption (n : Nat) (bits : List Bool) (hn : 1 ≤ n)
    (hn32 : n < 2 ^ 32) (hlen : Nat.log2 n + 1 ≤ bits.length) :
    ∃ v rest, BitReader.ns n bits = .ok (v, rest) ∧ v < n ∧
      (bits.length - rest.length = Nat.log2 n ∨
        bits.length - rest.length = Nat.log2 n + 1) := by
  have hne : n ≠ 0 := by omega
  have hlog31 : Nat.log2 n ≤ 31 := by
    have := (Nat.log2_lt hne (k := 32)).mpr hn32
    omega
  have hpow_le : 2 ^ Nat.log2 n ≤ n := Nat.log2_self_le hne
  have hlt_pow : n < 2 ^ (Nat.log2 n + 1) := Nat.lt_log2_self
  have hm32 : Nat.log2 n ≤ 32 := by omega
  have hlenf : Nat.log2 n ≤ bits.length := by omega
  have hf := BitReader.f_ok (Nat.log2 n) bits hm32 hlenf
  set v₀ := BitReader.bitsToNat 0 (bits.take (Nat.log2 n)) with hv₀
  have hv₀lt : v₀ < 2 ^ Nat.log2 n := by
    have := BitReader.bitsToNat_lt 0 (bits.take (Nat.log2 n))
    have hl : (bits.take (Nat.log2 n)).length = Nat.log2 n := by
      simp [List.length_take, Nat.min_eq_left hlenf]
    rw [hl] at this
    simpa using this
  have hwm : (1 <<< (Nat.log2 n + 1)) = 2 ^ (Nat.log2 n + 1) := by
    simp [Nat.shiftLeft_eq]
  simp only [BitReader.ns, if_neg hne, BitReader.floor_log2_eq_log2 n hne,
    Nat.add_sub_cancel, hwm, BitM.bind_def, BitM.pure_def]
  rw [BitM.bind_ok _ _ _ _ _ hf]
  by_cases hvm : v₀ < 2 ^ (Nat.log2 n + 1) - n
  · rw [if_pos hvm]
    refine ⟨v₀, bits.drop (Nat.log2 n), rfl, ?_, Or.inl ?_⟩
    · have hmn : 2 ^ (Nat.log2 n + 1) - n ≤ n := by
        have : 2 ^ (Nat.log2 n + 1) = 2 * 2 ^ Nat.log2 n := by ring
        omega
      omega
    · simp [List.length_drop]
      omega
  · rw [if_neg hvm]
    have hrest : 1 ≤ (bits.drop (Nat.log2 n)).length := by
      simp [List.length_drop]
      omega
    have hf1 := BitReader.f_ok 1 (bits.drop (Nat.log2 n)) (by omega) hrest
    rw [BitM.bind_ok _ _ _ _ _ hf1]
    set e := BitReader.bitsToNat 0 ((bits.drop (Nat.log2 n)).take 1) with he
    have helt : e < 2 := by
      have := BitReader.bitsToNat_lt 0 ((bits.drop (Nat.log2 n)).take 1)
      have hl : ((bits.drop (Nat.log2 n)).take 1).length = 1 := by
        simp [List.length_take]
        omega
      rw [hl] at this
      simpa using this
    refine ⟨(v₀ <<< 1) - (2 ^ (Nat.log2 n + 1) - n) + e,
      (bits.drop (Nat.log2 n)).drop 1, rfl, ?_, Or.inr ?_⟩
    · have hsh : v₀ <<< 1 = 2 * v₀ := by
        simp [Nat.shiftLeft_eq]
        ring
      have hp : 2 ^ (Nat.log2 n + 1) = 2 * 2 ^ Nat.log2 n := by ring
      omega
    · simp [List.length_drop]
      omega

/--
Witness for the C7 theorem: `ns(3)` on the stream `[1, 1]` (here `w = 2`,
`m = 1`, `v = 1 ≥ m`, so an extra bit is read and `2·1 − 1 + 1 = 2 < 3`).
-/
theorem ns_range_and_consumption_witness :
    ∃ v rest, BitReader.ns 3 [true, true] = .ok (v, rest) ∧ v < 3 ∧
      (([true, true] : List Bool).length - rest.length = Nat.log2 3 ∨
        ([true, true] : List Bool).length - rest.length = Nat.log2 3 + 1) :=
  ns_range_and_consumption 3 [true, true] (by norm_num) (by norm_num)
    (by norm_num [Nat.log2])

/-! ## `BitM.Sat` combinators -/

theorem BitM.Sat_bind {α β : Type} {m : BitM α} {g : α → BitM β} {Q : α → Prop}
    {P : β → Prop} (hm : BitM.Sat m Q) (hg : ∀ a, Q a → BitM.Sat (g a) P) :
    BitM.Sat (BitM.bind m g) P := by
  intro bits b r hok
  rw [BitM.bind_eq_ok] at hok
  obtain ⟨a, r₁, h1, h2⟩ := hok
  exact hg a (hm _ _ _ h1) _ _ _ h2

theorem BitM.Sat_any {α : Type} (m : BitM α) : BitM.Sat m (fun _ => True) :=
  fun _ _ _ _ => trivial

theorem BitM.Sat_bind_any {α β : Type} {m : BitM α} {g : α → BitM β} {P : β → Prop}
    (hg : ∀ a, BitM.Sat (g a) P) : BitM.Sat (BitM.bind m g) P :=
  BitM.Sat_bind (BitM.Sat_any m) (fun a _ => hg a)

theorem BitM.Sat_pure {α : Type} {a : α} {P : α → Prop} (h : P a) :
    BitM.Sat (BitM.pure a) P := by
  intro bits b r hok
  rw [BitM.pure_eq_ok] at hok
  obtain ⟨rfl, -⟩ := hok
  exact h

theorem BitM.Sat_ite {α : Type} {c : Prop} [Decidable c] {m1 m2 : BitM α} {P : α → Prop}
    (h1 : c → BitM.Sat m1 P) (h2 : ¬c → BitM.Sat m2 P) :
    BitM.Sat (if c then m1 else m2) P := by
  by_cases hc : c
  · rw [if_pos hc]
    exact h1 hc
  · rw [if_neg hc]
    exact h2 hc

theorem BitM.Sat_fail {α : Type} {P : α → Prop} : BitM.Sat BitM.fail P :=
  fun _ _ _ hok => POut.noConfusion hok

theorem BitM.Sat_panicked {α : Type} {P : α → Prop} : BitM.Sat BitM.panicked P :=
  fun _ _ _ hok => POut.noConfusion hok

theorem BitM.Sat_unsupported {α : Type} {P : α → Prop} : BitM.Sat BitM.unsupported P :=
  fun _ _ _ hok => POut.noConfusion hok

theorem BitM.Sat_weaken {α : Type} {m : BitM α} {P Q : α → Prop}
    (h : BitM.Sat m P) (himp : ∀ a, P a → Q a) : BitM.Sat m Q :=
  fun bits a r hok => himp a (h bits a r hok)

theorem BitM.Sat_bind_pure {α β : Type} {a : α} {g : α → BitM β} {P : β → Prop}
    (h : BitM.Sat (g a) P) : BitM.Sat (BitM.bind (BitM.pure a) g) P := by
  intro bits b r hok
  rw [BitM.bind_eq_ok] at hok
  obtain ⟨a', r₁, h1, h2⟩ := hok
  rw [BitM.pure_eq_ok] at h1
  obtain ⟨rfl, rfl⟩ := h1
  exact h _ _ _ h2

theorem BitM.Sat_bind_unsupported {α β : Type} {g : α → BitM β} {P : β → Prop} :
    BitM.Sat (BitM.bind BitM.unsupported g) P := by
  intro bits b r hok
  rw [BitM.bind_eq_ok] at hok
  obtain ⟨a, r₁, h1, -⟩ := hok
  exact POut.noConfusion h1

theorem BitM.Sat_bind_panicked {α β : Type} {g : α → BitM β} {P : β → Prop} :
    BitM.Sat (BitM.bind BitM.panicked g) P := by
  intro bits b r hok
  rw [BitM.bind_eq_ok] at hok
  obtain ⟨a, r₁, h1, -⟩ := hok
  exact POut.noConfusion h1

/-! ## Preservation helpers for the frame-header fields -/

theorem presFS_of_eqs {a b : FrameHeader} (h1 : a.frame_type = b.frame_type)
    (h2 : a.show_frame = b.show_frame) (h3 : a.show_existing_frame = b.show_existing_frame) :
    presFS a b :=
  And.intro h1 (And.intro h2 h3)

theorem presFSR_of_eqs {a b : FrameHeader} (h1 : a.frame_type = b.frame_type)
    (h2 : a.show_frame = b.show_frame) (h3 : a.show_existing_frame = b.show_existing_frame)
    (h4 : a.refresh_frame_flags = b.refresh_frame_flags) : presFSR a b :=
  And.intro (presFS_of_eqs h1 h2 h3) h4

theorem presFSR_refl {a : FrameHeader} : presFSR a a :=
  presFSR_of_eqs rfl rfl rfl rfl

theorem presFSR_trans {a b c : FrameHeader} (h1 : presFSR a b) (h2 : presFSR b c) :
    presFSR a c :=
  presFSR_of_eqs (h1.1.1.trans h2.1.1) (h1.1.2.1.trans h2.1.2.1)
    (h1.1.2.2.trans h2.1.2.2) (h1.2.trans h2.2)

/-- `mark_ref_frames` never re-validates a slot. -/
theorem mark_ref_frames_valid_false (r : RefFrameManager) (idl : Nat)
    (sh : SequenceHeader) (fh : FrameHeader) (j : Nat) (hj : r.ref_valid j = false) :
    (r.mark_ref_frames idl sh fh).ref_valid j = false := by
  unfold RefFrameManager.mark_ref_frames
  dsimp only
  split <;> split <;> first
  | rfl
  | exact hj

/-- `mark_ref_frames` leaves the stored order hints unchanged. -/
theorem mark_ref_frames_hint (r : RefFrameManager) (idl : Nat) (sh : SequenceHeader)
    (fh : FrameHeader) :
    (r.mark_ref_frames idl sh fh).ref_order_hint = r.ref_order_hint := rfl

/--
The error-resilient ref-order-hint loop preserves the fixed header fields,
never re-validates a manager slot, and never writes the manager's stored
order hints.
-/
theorem refOrderHintLoop_spec (sh : SequenceHeader) (k : Nat) :
    ∀ (i : Nat) (h : FrameHeader) (rf : RefFrameManager) (bits : List Bool)
      (h₂ : FrameHeader) (r : List Bool) (rf₂ : RefFrameManager),
      refOrderHintLoop sh k i h rf bits = (.ok (h₂, r), rf₂) →
      presFSR h₂ h ∧ (∀ j, rf.ref_valid j = false → rf₂.ref_valid j = false) ∧
        rf₂.ref_order_hint = rf.ref_order_hint := by
  induction k with
  | zero =>
    intro i h rf bits h₂ r rf₂ hok
    simp only [refOrderHintLoop, Prod.mk.injEq, POut.ok.injEq] at hok
    obtain ⟨⟨rfl, rfl⟩, rfl⟩ := hok
    exact ⟨presFSR_refl, fun j hj => hj, rfl⟩
  | succ k ih =>
    intro i h rf bits h₂ r rf₂ hok
    simp only [refOrderHintLoop] at hok
    rcases hf : BitReader.f sh.order_hint_bits bits with ⟨v, rest⟩ | - | - | - <;>
      rw [hf] at hok
    · dsimp only at hok
      by_cases hm :
          ({ h with ref_order_hint := upd h.ref_order_hint i v } : FrameHeader).ref_order_hint i ≠
            rf.ref_order_hint i
      · rw [if_pos hm] at hok
        obtain ⟨hp, hvalid, hhint⟩ := ih _ _ _ _ _ _ _ hok
        refine ⟨presFSR_trans hp (presFSR_of_eqs rfl rfl rfl rfl), ?_, hhint⟩
        intro j hj
        refine hvalid j ?_
        show (if j = i then false else rf.ref_valid j) = false
        by_cases hji : j = i
        · rw [if_pos hji]
        · rw [if_neg hji]
          exact hj
      · rw [if_neg hm] at hok
        obtain ⟨hp, hvalid, hhint⟩ := ih _ _ _ _ _ _ _ hok
        exact ⟨presFSR_trans hp (presFSR_of_eqs rfl rfl rfl rfl), hvalid, hhint⟩
    · simp at hok
    · simp at hok
    · simp at hok

/--
The reference-index loop only writes `ref_frame_idx`, so the fixed header
fields survive it.
-/
theorem refFrameIdxLoop_pres (sh : SequenceHeader) (idl : Nat) (rf : RefFrameManager)
    (b : Bool) (k : Nat) :
    ∀ (i : Nat) (h : FrameHeader),
      BitM.Sat (refFrameIdxLoop sh idl rf b k i h) (fun h₂ => presFSR h₂ h) := by
  induction k with
  | zero =>
    intro i h
    exact BitM.Sat_pure presFSR_refl
  | succ k ih =>
    intro i h
    show BitM.Sat (refFrameIdxLoop sh idl rf b (k + 1) i h) _
    simp only [refFrameIdxLoop]
    refine BitM.Sat_ite (fun hcnd => ?_) (fun hcnd => ?_)
    · refine BitM.Sat_bind_any fun rfi => ?_
      refine BitM.Sat_bind_any fun u => ?_
      refine BitM.Sat_bind_pure ?_
      refine BitM.Sat_ite (fun hfid => ?_) (fun hfid => ?_)
      · refine BitM.Sat_bind_any fun dfi => ?_
        refine BitM.Sat_bind_any fun u2 => ?_
        exact BitM.Sat_weaken (ih (i + 1) _)
          (fun h₂ hp => presFSR_trans hp (presFSR_of_eqs rfl rfl rfl rfl))
      · exact BitM.Sat_weaken (ih (i + 1) _)
          (fun h₂ hp => presFSR_trans hp (presFSR_of_eqs rfl rfl rfl rfl))
    · refine BitM.Sat_bind_pure ?_
      refine BitM.Sat_ite (fun hfid => ?_) (fun hfid => ?_)
      · refine BitM.Sat_bind_any fun dfi => ?_
        refine BitM.Sat_bind_any fun u2 => ?_
        exact BitM.Sat_weaken (ih (i + 1) _)
          (fun h₂ hp => presFSR_trans hp (presFSR_of_eqs rfl rfl rfl rfl))
      · exact BitM.Sat_weaken (ih (i + 1) _)
          (fun h₂ hp => presFSR_trans hp (presFSR_of_eqs rfl rfl rfl rfl))

/-- The `show_existing_frame` body never writes `show_frame`. -/
theorem phShowExisting_noshow (sh : SequenceHeader) (rf : RefFrameManager) (idl : Nat)
    (h : FrameHeader) :
    BitM.Sat (phShowExisting sh rf idl h) (fun h' => h'.show_frame = h.show_frame) := by
  unfold phShowExisting
  refine BitM.Sat_bind_any fun idx => ?_
  refine BitM.Sat_ite (fun hcnd => BitM.Sat_unsupported) (fun hcnd => ?_)
  refine BitM.Sat_ite (fun hfid => ?_) (fun hfid => ?_)
  · refine BitM.Sat_bind_any fun dfi => ?_
    refine BitM.Sat_bind_pure ?_
    refine BitM.Sat_ite (fun hfg => BitM.Sat_unsupported) (fun hfg => ?_)
    exact BitM.Sat_pure (by split <;> rfl)
  · refine BitM.Sat_bind_pure ?_
    refine BitM.Sat_ite (fun hfg => BitM.Sat_unsupported) (fun hfg => ?_)
    exact BitM.Sat_pure (by split <;> rfl)

/-- A `show_existing_frame` early return out of `phStart` carries
`show_frame = false` (the field is never set on that path). -/
theorem phStart_inl_noshow (sh : SequenceHeader) (rf : RefFrameManager) (idl : Nat) :
    BitM.Sat (phStart sh rf idl)
      (fun s => ∀ h', s = Sum.inl h' → h'.show_frame = false) := by
  unfold phStart
  refine BitM.Sat_ite (fun hcnd => ?_) (fun hcnd => ?_)
  · exact BitM.Sat_pure (fun h' heq => Sum.noConfusion heq)
  · refine BitM.Sat_bind_any fun sef => ?_
    refine BitM.Sat_ite (fun hse => ?_) (fun hse => ?_)
    · refine BitM.Sat_bind (Q := fun h' => h'.show_frame = false)
        (BitM.Sat_weaken (phShowExisting_noshow sh rf idl _) (fun a ha => ha.trans rfl)) ?_
      intro h1 hq
      exact BitM.Sat_pure (fun h' heq => by cases heq; exact hq)
    · refine BitM.Sat_bind_any fun ft => ?_
      refine BitM.Sat_bind_any fun sf => ?_
      refine BitM.Sat_ite (fun hdm => BitM.Sat_unsupported) (fun hdm => ?_)
      refine BitM.Sat_ite (fun hsb => ?_) (fun hsb => ?_)
      · refine BitM.Sat_bind_pure ?_
        refine BitM.Sat_ite (fun herr => ?_) (fun herr => ?_)
        · refine BitM.Sat_bind_pure ?_
          exact BitM.Sat_pure fun h' heq => Sum.noConfusion heq
        · refine BitM.Sat_bind_any fun erm => ?_
          refine BitM.Sat_bind_pure ?_
          exact BitM.Sat_pure fun h' heq => Sum.noConfusion heq
      · refine BitM.Sat_bind_any fun sb => ?_
        refine BitM.Sat_bind_pure ?_
        refine BitM.Sat_ite (fun herr => ?_) (fun herr => ?_)
        · refine BitM.Sat_bind_pure ?_
          exact BitM.Sat_pure fun h' heq => Sum.noConfusion heq
        · refine BitM.Sat_bind_any fun erm => ?_
          refine BitM.Sat_bind_pure ?_
          exact BitM.Sat_pure fun h' heq => Sum.noConfusion heq

/-- `phB1` writes only CDF/screen-content/integer-mv fields. -/
theorem phB1_pres (sh : SequenceHeader) (h : FrameHeader) :
    BitM.Sat (phB1 sh h) (fun h₂ => presFSR h₂ h) := by
  unfold phB1
  refine BitM.Sat_bind_any fun dcu => ?_
  have leaf2 : ∀ hx : FrameHeader, presFSR hx h →
      BitM.Sat (if hx.frame_is_intra then
          (pure { hx with force_integer_mv := true } : BitM FrameHeader)
        else pure hx) (fun h₂ => presFSR h₂ h) := by
    intro hx hp
    refine BitM.Sat_ite (fun hi => ?_) (fun hi => ?_)
    · exact BitM.Sat_pure (presFSR_trans (presFSR_of_eqs rfl rfl rfl rfl) hp)
    · exact BitM.Sat_pure hp
  refine BitM.Sat_ite (fun hc1 => ?_) (fun hc1 => ?_)
  · refine BitM.Sat_bind_any fun asct => ?_
    refine BitM.Sat_bind_pure ?_
    refine BitM.Sat_ite (fun hc2 => ?_) (fun hc2 => ?_)
    · refine BitM.Sat_ite (fun hc3 => ?_) (fun hc3 => ?_)
      · refine BitM.Sat_bind_any fun fim => ?_
        refine BitM.Sat_bind_pure ?_
        exact leaf2 _ (presFSR_of_eqs rfl rfl rfl rfl)
      · refine BitM.Sat_bind_pure ?_
        exact leaf2 _ (presFSR_of_eqs rfl rfl rfl rfl)
    · refine BitM.Sat_bind_pure ?_
      exact leaf2 _ (presFSR_of_eqs rfl rfl rfl rfl)
  · refine BitM.Sat_bind_pure ?_
    refine BitM.Sat_ite (fun hc2 => ?_) (fun hc2 => ?_)
    · refine BitM.Sat_ite (fun hc3 => ?_) (fun hc3 => ?_)
      · refine BitM.Sat_bind_any fun fim => ?_
        refine BitM.Sat_bind_pure ?_
        exact leaf2 _ (presFSR_of_eqs rfl rfl rfl rfl)
      · refine BitM.Sat_bind_pure ?_
        exact leaf2 _ (presFSR_of_eqs rfl rfl rfl rfl)
    · refine BitM.Sat_bind_pure ?_
      exact leaf2 _ (presFSR_of_eqs rfl rfl rfl rfl)

/--
`phB2` preserves the frame type and the show flags, and forces
`refresh_frame_flags = 255` whenever the incoming header is a shown Key
frame (only the Switch/Key+show branch skips the 8-bit read).
-/
theorem phB2_pres (sh : SequenceHeader) (h : FrameHeader) :
    BitM.Sat (phB2 sh h)
      (fun h₂ => presFS h₂ h ∧
        (h.frame_type = KEY_FRAME ∧ h.show_frame = true →
          h₂.refresh_frame_flags = 255)) := by
  unfold phB2
  have jpA : ∀ hx : FrameHeader, presFS hx h →
      BitM.Sat (do
        let oh ← BitReader.f sh.order_hint_bits
        let hdr := { hx with order_hint := oh }
        let hdr : FrameHeader ←
          if hdr.frame_is_intra ∨ hdr.error_resilient_mode then
            pure { hdr with primary_ref_frame := PRIMARY_REF_NONE }
          else do
            let prf ← BitReader.f 3
            pure { hdr with primary_ref_frame := prf }
        if sh.decoder_model_info_present_flag then
          BitM.unsupported
        else do
          let hdr := { hdr with
            allow_high_precision_mv := false, use_ref_frame_mvs := false, allow_intrabc := false }
          if hdr.frame_type = SWITCH_FRAME ∨ (hdr.frame_type = KEY_FRAME ∧ hdr.show_frame) then
            pure { hdr with refresh_frame_flags := 255 }
          else do
            let rff ← BitReader.f 8
            pure { hdr with refresh_frame_flags := rff })
        (fun h₂ => presFS h₂ h ∧
          (h.frame_type = KEY_FRAME ∧ h.show_frame = true →
            h₂.refresh_frame_flags = 255)) := by
    intro hx hp
    refine BitM.Sat_bind_any fun oh => ?_
    refine BitM.Sat_ite (fun hpr => ?_) (fun hpr => ?_)
    · refine BitM.Sat_bind_pure ?_
      refine BitM.Sat_ite (fun hdm => BitM.Sat_unsupported) (fun hdm => ?_)
      refine BitM.Sat_ite (fun hks => ?_) (fun hks => ?_)
      · exact BitM.Sat_pure ⟨presFS_of_eqs hp.1 hp.2.1 hp.2.2, fun hks2 => rfl⟩
      · refine BitM.Sat_bind_any fun rff => ?_
        exact BitM.Sat_pure ⟨presFS_of_eqs hp.1 hp.2.1 hp.2.2,
          fun hks2 => absurd (Or.inr ⟨hp.1.trans hks2.1, hp.2.1.trans hks2.2⟩) hks⟩
    · refine BitM.Sat_bind_any fun prf => ?_
      refine BitM.Sat_bind_pure ?_
      refine BitM.Sat_ite (fun hdm => BitM.Sat_unsupported) (fun hdm => ?_)
      refine BitM.Sat_ite (fun hks => ?_) (fun hks => ?_)
      · exact BitM.Sat_pure ⟨presFS_of_eqs hp.1 hp.2.1 hp.2.2, fun hks2 => rfl⟩
      · refine BitM.Sat_bind_any fun rff => ?_
        exact BitM.Sat_pure ⟨presFS_of_eqs hp.1 hp.2.1 hp.2.2,
          fun hks2 => absurd (Or.inr ⟨hp.1.trans hks2.1, hp.2.1.trans hks2.2⟩) hks⟩
  refine BitM.Sat_ite (fun hc1 => ?_) (fun hc1 => ?_)
  · refine BitM.Sat_bind_pure ?_
    exact jpA _ (presFS_of_eqs rfl rfl rfl)
  · refine BitM.Sat_ite (fun hc2 => ?_) (fun hc2 => ?_)
    · refine BitM.Sat_bind_pure ?_
      exact jpA _ (presFS_of_eqs rfl rfl rfl)
    · refine BitM.Sat_bind_any fun fso => ?_
      refine BitM.Sat_bind_pure ?_
      exact jpA _ (presFS_of_eqs rfl rfl rfl)

/-- `phC1` (sizes and reference indices) preserves the fixed fields. -/
theorem phC1_pres (sh : SequenceHeader) (idl : Nat) (rf : RefFrameManager)
    (h : FrameHeader) :
    BitM.Sat (phC1 sh idl rf h) (fun h₂ => presFSR h₂ h) := by
  unfold phC1
  refine BitM.Sat_ite (fun hKEY => ?_) (fun hKEY => ?_)
  · refine BitM.Sat_bind_any fun fs => ?_
    refine BitM.Sat_bind_any fun rs => ?_
    refine BitM.Sat_ite (fun hsc => ?_) (fun hsc => ?_)
    · refine BitM.Sat_bind_any fun aib => ?_
      exact BitM.Sat_pure (presFSR_of_eqs rfl rfl rfl rfl)
    · exact BitM.Sat_pure (presFSR_of_eqs rfl rfl rfl rfl)
  · refine BitM.Sat_ite (fun hINT => ?_) (fun hINT => ?_)
    · refine BitM.Sat_bind_any fun fs => ?_
      refine BitM.Sat_bind_any fun rs => ?_
      refine BitM.Sat_ite (fun hsc => ?_) (fun hsc => ?_)
      · refine BitM.Sat_bind_any fun aib => ?_
        exact BitM.Sat_pure (presFSR_of_eqs rfl rfl rfl rfl)
      · exact BitM.Sat_pure (presFSR_of_eqs rfl rfl rfl rfl)
    · have jpFh : ∀ frs : Bool,
          BitM.Sat (do
            let hdr : FrameHeader ←
              if frs then do
                let lfi ← BitReader.f 3
                let gfi ← BitReader.f 3
                let _hdr := { h with last_frame_idx := lfi, gold_frame_idx := gfi }
                BitM.unsupported
              else
                pure h
            let hdr ← refFrameIdxLoop sh idl rf frs REFS_PER_FRAME 0 hdr
            let hdr : FrameHeader ←
              if hdr.frame_size_override_flag ∧ ¬hdr.error_resilient_mode then
                BitM.unsupported
              else do
                let fs ← parse_frame_size sh hdr
                let rs ← parse_render_size fs
                pure { hdr with frame_size := fs, render_size := rs }
            let hdr : FrameHeader ←
              if hdr.force_integer_mv then
                pure { hdr with allow_high_precision_mv := false }
              else do
                let ahpm ← BitReader.fBool 1
                pure { hdr with allow_high_precision_mv := ahpm }
            let ifl ← read_interpolation_filter
            let imms ← BitReader.fBool 1
            let hdr := { hdr with interpolation_filter := ifl, is_motion_mode_switchable := imms }
            if hdr.error_resilient_mode ∨ ¬sh.enable_ref_frame_mvs then
              pure { hdr with use_ref_frame_mvs := false }
            else do
              let urfm ← BitReader.fBool 1
              pure { hdr with use_ref_frame_mvs := urfm }) (fun h₂ => presFSR h₂ h) := by
        intro frs
        refine BitM.Sat_ite (fun hfrs => ?_) (fun hfrs => ?_)
        · refine BitM.Sat_bind_any fun lfi => ?_
          refine BitM.Sat_bind_any fun gfi => ?_
          exact BitM.Sat_bind_unsupported
        · refine BitM.Sat_bind_pure ?_
          refine BitM.Sat_bind (refFrameIdxLoop_pres sh idl rf frs REFS_PER_FRAME 0 h)
            (fun h1 hq => ?_)
          refine BitM.Sat_ite (fun hov => ?_) (fun hov => ?_)
          · exact BitM.Sat_bind_unsupported
          · refine BitM.Sat_bind_any fun fs => ?_
            refine BitM.Sat_bind_any fun rs => ?_
            refine BitM.Sat_bind_pure ?_
            refine BitM.Sat_ite (fun hfi => ?_) (fun hfi => ?_)
            · refine BitM.Sat_bind_pure ?_
              refine BitM.Sat_bind_any fun ifl => ?_
              refine BitM.Sat_bind_any fun imms => ?_
              refine BitM.Sat_ite (fun hem => ?_) (fun hem => ?_)
              · exact BitM.Sat_pure (presFSR_trans (presFSR_of_eqs rfl rfl rfl rfl) hq)
              · refine BitM.Sat_bind_any fun urfm => ?_
                exact BitM.Sat_pure (presFSR_trans (presFSR_of_eqs rfl rfl rfl rfl) hq)
            · refine BitM.Sat_bind_any fun ahpm => ?_
              refine BitM.Sat_bind_pure ?_
              refine BitM.Sat_bind_any fun ifl => ?_
              refine BitM.Sat_bind_any fun imms => ?_
              refine BitM.Sat_ite (fun hem => ?_) (fun hem => ?_)
              · exact BitM.Sat_pure (presFSR_trans (presFSR_of_eqs rfl rfl rfl rfl) hq)
              · refine BitM.Sat_bind_any fun urfm => ?_
                exact BitM.Sat_pure (presFSR_trans (presFSR_of_eqs rfl rfl rfl rfl) hq)
      refine BitM.Sat_ite (fun heoh => ?_) (fun heoh => ?_)
      · refine BitM.Sat_bind_pure ?_
        exact jpFh false
      · refine BitM.Sat_bind_any fun frs => ?_
        exact jpFh frs

/-- `phC2` (order hints, CDF-update flag, past independence) preserves the
fixed fields. -/
theorem phC2_pres (sh : SequenceHeader) (rf : RefFrameManager) (h : FrameHeader) :
    BitM.Sat (phC2 sh rf h) (fun h₂ => presFSR h₂ h) := by
  unfold phC2
  refine BitM.Sat_ite (fun hdc => ?_) (fun hdc => ?_)
  · refine BitM.Sat_bind_pure ?_
    refine BitM.Sat_ite (fun hprf => ?_) (fun hprf => ?_)
    · exact BitM.Sat_pure (by split <;> exact presFSR_of_eqs rfl rfl rfl rfl)
    · exact BitM.Sat_pure (by split <;> exact presFSR_of_eqs rfl rfl rfl rfl)
  · refine BitM.Sat_bind_any fun dfeuc => ?_
    refine BitM.Sat_bind_pure ?_
    refine BitM.Sat_ite (fun hprf => ?_) (fun hprf => ?_)
    · exact BitM.Sat_pure (by split <;> exact presFSR_of_eqs rfl rfl rfl rfl)
    · exact BitM.Sat_pure (by split <;> exact presFSR_of_eqs rfl rfl rfl rfl)

/-- `phC3` (tile info through loop restoration) preserves the fixed fields. -/
theorem phC3_pres (sh : SequenceHeader) (h : FrameHeader) :
    BitM.Sat (phC3 sh h) (fun h₂ => presFSR h₂ h) := by
  unfold phC3
  refine BitM.Sat_bind_any fun ti => ?_
  refine BitM.Sat_bind_any fun qp => ?_
  refine BitM.Sat_bind_any fun sp => ?_
  refine BitM.Sat_bind_any fun dqp => ?_
  refine BitM.Sat_bind_any fun dlfp => ?_
  refine BitM.Sat_bind_any fun lfp => ?_
  refine BitM.Sat_bind_any fun cp => ?_
  refine BitM.Sat_bind_any fun lrp => ?_
  exact BitM.Sat_pure (presFSR_of_eqs rfl rfl rfl rfl)

/-- `phC4` (tx mode through film grain) preserves the fixed fields. -/
theorem phC4_pres (sh : SequenceHeader) (rf : RefFrameManager) (h : FrameHeader) :
    BitM.Sat (phC4 sh rf h) (fun h₂ => presFSR h₂ h) := by
  unfold phC4
  refine BitM.Sat_bind_any fun txm => ?_
  have jp2h : ∀ hx : FrameHeader, presFSR hx h →
      BitM.Sat (do
        let rts ← BitReader.fBool 1
        let hdr := { hx with reduced_tx_set := rts }
        let gmp ← parse_global_motion_params hdr
        let hdr := { hdr with global_motion_params := gmp }
        let fgp ← parse_film_grain_params sh hdr
        pure { hdr with film_grain_params := fgp }) (fun h₂ => presFSR h₂ h) := by
    intro hx hp
    refine BitM.Sat_bind_any fun rts => ?_
    refine BitM.Sat_bind_any fun gmp => ?_
    refine BitM.Sat_bind_any fun fgp => ?_
    exact BitM.Sat_pure (presFSR_trans (presFSR_of_eqs rfl rfl rfl rfl) hp)
  have jp1h : ∀ hx : FrameHeader, presFSR hx h →
      BitM.Sat (do
        let smp ← parse_skip_mode_params sh hx rf
        let hdr := { hx with skip_mode_params := smp }
        let hdr : FrameHeader ←
          if hdr.frame_is_intra ∨ hdr.error_resilient_mode ∨ ¬sh.enable_warped_motion then
            pure { hdr with allow_warped_motion := false }
          else do
            let awm ← BitReader.fBool 1
            pure { hdr with allow_warped_motion := awm }
        let rts ← BitReader.fBool 1
        let hdr := { hdr with reduced_tx_set := rts }
        let gmp ← parse_global_motion_params hdr
        let hdr := { hdr with global_motion_params := gmp }
        let fgp ← parse_film_grain_params sh hdr
        pure { hdr with film_grain_params := fgp }) (fun h₂ => presFSR h₂ h) := by
    intro hx hp
    refine BitM.Sat_bind_any fun smp => ?_
    refine BitM.Sat_ite (fun hw => ?_) (fun hw => ?_)
    · refine BitM.Sat_bind_pure ?_
      exact jp2h _ (presFSR_trans (presFSR_of_eqs rfl rfl rfl rfl) hp)
    · refine BitM.Sat_bind_any fun awm => ?_
      refine BitM.Sat_bind_pure ?_
      exact jp2h _ (presFSR_trans (presFSR_of_eqs rfl rfl rfl rfl) hp)
  refine BitM.Sat_ite (fun hi => ?_) (fun hi => ?_)
  · refine BitM.Sat_bind_pure ?_
    exact jp1h _ (presFSR_of_eqs rfl rfl rfl rfl)
  · refine BitM.Sat_bind_any fun rsel => ?_
    refine BitM.Sat_bind_pure ?_
    exact jp1h _ (presFSR_of_eqs rfl rfl rfl rfl)

/-- `phPartC` preserves frame type, show flags and refresh flags. -/
theorem phPartC_pres (sh : SequenceHeader) (idl : Nat) (rf : RefFrameManager)
    (h : FrameHeader) :
    BitM.Sat (phPartC sh idl rf h) (fun h₂ => presFSR h₂ h) := by
  unfold phPartC
  refine BitM.Sat_bind (Q := fun h1 => presFSR h1 h) (phC1_pres sh idl rf h)
    (fun h1 hq1 => ?_)
  refine BitM.Sat_bind (Q := fun h2 => presFSR h2 h)
    (BitM.Sat_weaken (phC2_pres sh rf h1) (fun a ha => presFSR_trans ha hq1))
    (fun h2 hq2 => ?_)
  refine BitM.Sat_bind (Q := fun h3 => presFSR h3 h)
    (BitM.Sat_weaken (phC3_pres sh h2) (fun a ha => presFSR_trans ha hq2))
    (fun h3 hq3 => ?_)
  exact BitM.Sat_weaken (phC4_pres sh rf h3) (fun a ha => presFSR_trans ha hq3)

/--
Tail of `phPartB` after `current_frame_id` / `mark_ref_frames`: the `phB2`
read followed by the optional ref-order-hint invalidation loop.
-/
theorem phPartB_tail_spec (sh : SequenceHeader) (hm : FrameHeader) (rfm : RefFrameManager)
    (r2 : List Bool) (h₂ : FrameHeader) (r : List Bool) (rf₂ : RefFrameManager)
    (h3 : FrameHeader) (r3 : List Bool)
    (hb2 : phB2 sh hm r2 = .ok (h3, r3))
    (hok : (if (¬h3.frame_is_intra ∨ h3.refresh_frame_flags ≠ 255) ∧
          (h3.error_resilient_mode ∧ sh.enable_order_hint) then
        refOrderHintLoop sh NUM_REF_FRAMES 0 h3 rfm r3
      else (.ok (h3, r3), rfm)) = (.ok (h₂, r), rf₂)) :
    presFS h₂ hm ∧
      (hm.frame_type = KEY_FRAME ∧ hm.show_frame = true → h₂.refresh_frame_flags = 255) ∧
      (∀ j, rfm.ref_valid j = false → rf₂.ref_valid j = false) ∧
      rf₂.ref_order_hint = rfm.ref_order_hint := by
  have hp2 := phB2_pres sh hm r2 h3 r3 hb2
  by_cases hcl : (¬h3.frame_is_intra ∨ h3.refresh_frame_flags ≠ 255) ∧
      (h3.error_resilient_mode ∧ sh.enable_order_hint)
  · rw [if_pos hcl] at hok
    obtain ⟨hp3, hval3, hhint3⟩ :=
      refOrderHintLoop_spec sh NUM_REF_FRAMES 0 h3 rfm r3 h₂ r rf₂ hok
    refine ⟨presFS_of_eqs (hp3.1.1.trans hp2.1.1) (hp3.1.2.1.trans hp2.1.2.1)
        (hp3.1.2.2.trans hp2.1.2.2), ?_, hval3, hhint3⟩
    intro hks
    exact hp3.2.trans (hp2.2 hks)
  · rw [if_neg hcl] at hok
    simp only [Prod.mk.injEq, POut.ok.injEq] at hok
    obtain ⟨⟨h3eq, -⟩, rfeq⟩ := hok
    subst h3eq
    subst rfeq
    exact ⟨hp2.1, hp2.2, fun j hj => hj, rfl⟩

/--
`phPartB` preserves frame type and show flags, forces all-ones refresh
flags for a shown Key frame, never re-validates a manager slot, and leaves
the manager's stored order hints unchanged.
-/
theorem phPartB_spec (sh : SequenceHeader) (idl : Nat) (rf : RefFrameManager)
    (h : FrameHeader) (bits : List Bool) (h₂ : FrameHeader) (r : List Bool)
    (rf₂ : RefFrameManager)
    (hok : phPartB sh idl rf h bits = (.ok (h₂, r), rf₂)) :
    presFS h₂ h ∧
      (h.frame_type = KEY_FRAME ∧ h.show_frame = true → h₂.refresh_frame_flags = 255) ∧
      (∀ j, rf.ref_valid j = false → rf₂.ref_valid j = false) ∧
      rf₂.ref_order_hint = rf.ref_order_hint := by
  unfold phPartB at hok
  rcases hb1 : phB1 sh h bits with ⟨h1, r1⟩ | - | - | - <;> rw [hb1] at hok
  · dsimp only at hok
    have hp1 : presFSR h1 h := phB1_pres sh h bits h1 r1 hb1
    by_cases hfid : sh.frame_id_numbers_present_flag
    · rw [if_pos hfid] at hok
      rcases hf : BitReader.f idl r1 with ⟨cfi, r2⟩ | - | - | - <;> rw [hf] at hok
      · dsimp only at hok
        rcases hb2 : phB2 sh { h1 with current_frame_id := cfi } r2 with ⟨h3, r3⟩ | - | - | -
          <;> rw [hb2] at hok
        · dsimp only at hok
          obtain ⟨tA, tB, tC, tD⟩ := phPartB_tail_spec sh _ _ r2 h₂ r rf₂ h3 r3 hb2 hok
          exact ⟨presFS_of_eqs (tA.1.trans hp1.1.1) (tA.2.1.trans hp1.1.2.1)
              (tA.2.2.trans hp1.1.2.2),
            fun hks => tB ⟨hp1.1.1.trans hks.1, hp1.1.2.1.trans hks.2⟩,
            fun j hj => tC j (mark_ref_frames_valid_false rf idl sh _ j hj),
            tD.trans (mark_ref_frames_hint rf idl sh _)⟩
        · simp at hok
        · simp at hok
        · simp at hok
      · simp at hok
      · simp at hok
      · simp at hok
    · rw [if_neg hfid] at hok
      dsimp only at hok
      rcases hb2 : phB2 sh { h1 with current_frame_id := 0 } r1 with ⟨h3, r3⟩ | - | - | -
        <;> rw [hb2] at hok
      · dsimp only at hok
        obtain ⟨tA, tB, tC, tD⟩ := phPartB_tail_spec sh _ _ r1 h₂ r rf₂ h3 r3 hb2 hok
        exact ⟨presFS_of_eqs (tA.1.trans hp1.1.1) (tA.2.1.trans hp1.1.2.1)
            (tA.2.2.trans hp1.1.2.2),
          fun hks => tB ⟨hp1.1.1.trans hks.1, hp1.1.2.1.trans hks.2⟩, tC, tD⟩
      · simp at hok
      · simp at hok
      · simp at hok
  · simp at hok
  · simp at hok
  · simp at hok

/--
**C5** (amended).  For every successfully parsed non-show-existing frame
header whose frame type is Key with `show_frame` set, every slot of the
returned reference-frame manager is invalid with stored order hint 0, and
the returned header's `refresh_frame_flags` is 255.  This is the forward
direction of the spec's iff; the converse fails (see the counterexample):
`refresh_frame_flags = 255` together with all-invalid slots can also arise
on a Key + no-show parse whose refresh byte is read as `0xFF` from the
stream.
-/
theorem parse_frame_header_keyshow_amended (sh : SequenceHeader) (rf : RefFrameManager)
    (bits : List Bool) (hdr : FrameHeader) (rest : List Bool) (rf' : RefFrameManager)
    (hres : parse_frame_header sh rf bits = (.ok (hdr, rest), rf'))
    (hnse : hdr.show_existing_frame = false)
    (hkey : hdr.frame_type = KEY_FRAME) (hshow : hdr.show_frame = true) :
    (∀ i, i < NUM_REF_FRAMES → rf'.ref_valid i = false ∧ rf'.ref_order_hint i = 0) ∧
      hdr.refresh_frame_flags = 255 := by
  unfold parse_frame_header at hres
  dsimp only at hres
  set idl := (if sh.frame_id_numbers_present_flag then
    sh.additional_frame_id_length + sh.delta_frame_id_length else 0) with hidl
  rcases hpa : phPartA sh idl rf bits with ⟨pa, rf₁⟩
  rw [hpa] at hres
  rcases pa with ⟨s, r0⟩ | - | - | -
  · rcases s with h0 | h1
    · dsimp only at hres
      simp only [Prod.mk.injEq, POut.ok.injEq] at hres
      obtain ⟨⟨h0eq, -⟩, -⟩ := hres
      unfold phPartA at hpa
      by_cases hlen : ¬(idl ≤ 16)
      · rw [if_pos hlen] at hpa
        simp at hpa
      · rw [if_neg hlen] at hpa
        rcases hps : phStart sh rf idl bits with ⟨s', rps⟩ | - | - | - <;> rw [hps] at hpa
        · rcases s' with hA | hA
          · dsimp only at hpa
            simp only [Prod.mk.injEq, POut.ok.injEq, Sum.inl.injEq] at hpa
            obtain ⟨⟨hAeq, -⟩, -⟩ := hpa
            have hsf := phStart_inl_noshow sh rf idl bits (.inl hA) rps hps hA rfl
            rw [hAeq, h0eq, hshow] at hsf
            exact Bool.noConfusion hsf
          · dsimp only at hpa
            by_cases hKS : hA.frame_type = KEY_FRAME ∧ hA.show_frame = true
            · rw [if_pos hKS] at hpa
              simp at hpa
            · rw [if_neg hKS] at hpa
              simp at hpa
        · simp at hpa
        · simp at hpa
        · simp at hpa
    · dsimp only at hres
      rcases hpb : phPartB sh idl rf₁ h1 r0 with ⟨pb, rf₂⟩
      rw [hpb] at hres
      rcases pb with ⟨h2, r2⟩ | - | - | -
      · dsimp only at hres
        rcases hpc : phPartC sh idl rf₂ h2 r2 with ⟨h3, r3⟩ | - | - | - <;> rw [hpc] at hres
        · dsimp only at hres
          simp only [Prod.mk.injEq, POut.ok.injEq] at hres
          obtain ⟨⟨h3eq, -⟩, rf2eq⟩ := hres
          subst h3eq
          subst rf2eq
          have hpcp : presFSR h3 h2 := phPartC_pres sh idl rf₂ h2 r2 h3 r3 hpc
          obtain ⟨tA, tB, tC, tD⟩ := phPartB_spec sh idl rf₁ h1 r0 h2 r2 rf₂ hpb
          have h1key : h1.frame_type = KEY_FRAME :=
            tA.1.symm.trans (hpcp.1.1.symm.trans hkey)
          have h1show : h1.show_frame = true :=
            tA.2.1.symm.trans (hpcp.1.2.1.symm.trans hshow)
          unfold phPartA at hpa
          by_cases hlen : ¬(idl ≤ 16)
          · rw [if_pos hlen] at hpa
            simp at hpa
          · rw [if_neg hlen] at hpa
            rcases hps : phStart sh rf idl bits with ⟨s', rps⟩ | - | - | - <;>
              rw [hps] at hpa
            · rcases s' with hA | hA
              · dsimp only at hpa
                simp at hpa
              · dsimp only at hpa
                by_cases hKS : hA.frame_type = KEY_FRAME ∧ hA.show_frame = true
                · rw [if_pos hKS] at hpa
                  simp only [Prod.mk.injEq, POut.ok.injEq, Sum.inr.injEq] at hpa
                  obtain ⟨⟨hAeq, -⟩, hrfeq⟩ := hpa
                  constructor
                  · intro i hi
                    constructor
                    · refine tC i ?_
                      rw [← hrfeq]
                      show (if i < NUM_REF_FRAMES then false else rf.ref_valid i) = false
                      rw [if_pos hi]
                    · have hcf := congrFun tD i
                      rw [hcf, ← hrfeq]
                      show (if i < NUM_REF_FRAMES then 0 else rf.ref_order_hint i) = 0
                      rw [if_pos hi]
                  · exact hpcp.2.trans (tB ⟨h1key, h1show⟩)
                · rw [if_neg hKS] at hpa
                  simp only [Prod.mk.injEq, POut.ok.injEq, Sum.inr.injEq] at hpa
                  obtain ⟨⟨hAeq, -⟩, -⟩ := hpa
                  rw [hAeq] at hKS
                  exact absurd ⟨h1key, h1show⟩ hKS
            · simp at hpa
            · simp at hpa
            · simp at hpa
        · simp at hres
        · simp at hres
        · simp at hres
      · dsimp only at hres
        simp at hres
      · dsimp only at hres
        simp at hres
      · dsimp only at hres
        simp at hres
  · dsimp only at hres
    simp at hres
  · dsimp only at hres
    simp at hres
  · dsimp only at hres
    simp at hres

/--
C5 counterexample to the spec's iff: the Key + no-show 47-bit stream
`c5bits` parses successfully with `show_existing_frame = false`,
`frame_type = KEY_FRAME` and `show_frame = false`, yet the returned
header's `refresh_frame_flags` is 255 (read as `0xFF` from the stream) and
every manager slot ends invalid with order hint 0 — exactly the state the
spec reserves for Key + show headers.
-/
theorem parse_frame_header_keyshow_counterexample :
    (phFh c5nres).isSome = true ∧ c5nhdr.show_existing_frame = false ∧
      c5nhdr.frame_type = KEY_FRAME ∧ c5nhdr.show_frame = false ∧
      c5nhdr.refresh_frame_flags = 255 ∧
      (∀ i, i < NUM_REF_FRAMES →
        c5nres.2.ref_valid i = false ∧ c5nres.2.ref_order_hint i = 0) := by
  refine ⟨rfl, rfl, rfl, rfl, rfl, ?_⟩
  decide

/-- Witness for the C5 amended theorem: the concrete Key + show stream
`c5wbits` against the all-valid manager `rfC5`. -/
theorem parse_frame_header_keyshow_amended_witness :
    (∀ i, i < NUM_REF_FRAMES →
      c5res.2.ref_valid i = false ∧ c5res.2.ref_order_hint i = 0) ∧
      c5hdr.refresh_frame_flags = 255 :=
  parse_frame_header_keyshow_amended shC5 rfC5 c5wbits c5hdr c5rest c5res.2 rfl rfl rfl rfl

/--
C10: `parse_frame_header` is not atomic with respect to the manager — on
the truncated stream `c10bits` the parse fails (at the
`disable_cdf_update` read), yet the Key + show-frame invalidation has
already cleared every slot of `rfC10` (slot 0 shown: valid `true → false`,
hint `5 → 0`).
-/
theorem parse_frame_header_not_atomic :
    (parse_frame_header shC10 rfC10 c10bits).1 = .fail ∧
      rfC10.ref_valid 0 = true ∧ rfC10.ref_order_hint 0 = 5 ∧
      (parse_frame_header shC10 rfC10 c10bits).2.ref_valid 0 = false ∧
      (parse_frame_header shC10 rfC10 c10bits).2.ref_order_hint 0 = 0 :=
  ⟨rfl, rfl, rfl, rfl, rfl⟩

/--
C1 (code bug): the reset guard of `parse_film_grain_params`
(`src/obu.rs:1448`) is `!sh.film_grain_params_present || (!fh.show_frame &&
fh.showable_frame)` where the AV1 specification (and the spec text) has
`(!show_frame && !showable_frame)`.  Consequently a frame that is neither
shown nor showable (`fhFGa`) does not take the reset path: it reads
`apply_grain` (failing on an empty stream, consuming the bit otherwise) —
while a not-shown but showable frame (`fhFGb`) takes the reset path and
consumes nothing.
-/
theorem film_grain_guard_code_bug :
    parse_film_grain_params shFG fhFGa [] = .fail ∧
      parse_film_grain_params shFG fhFGa [false] = .ok ({}, []) ∧
      parse_film_grain_params shFG fhFGb [true] = .ok ({}, [true]) :=
  ⟨rfl, rfl, rfl⟩

/--
C8 (amended): on the non-reduced path, a sequence-header bitstream whose
5-bit operating-points count field is nonzero (so `operating_points_cnt =
cnt + 1 > 1`) drives `parse_sequence_header` into the
`assert_eq!(sh.operating_points_cnt, 1)` at `src/obu.rs:1686` — an
assertion failure (panic), not an `Unsupported` error and not a silent
skip.
-/
theorem parse_sequence_header_multi_op_amended (b0 b1 b2 b3 b4 : Bool) (rest : List Bool)
    (h : b0 = true ∨ b1 = true ∨ b2 = true ∨ b3 = true ∨ b4 = true) :
    parse_sequence_header
      (List.replicate 7 false ++ [b0, b1, b2, b3, b4] ++ rest) = .panicked := by
  cases b0 <;> cases b1 <;> cases b2 <;> cases b3 <;> cases b4 <;>
    first
    | rfl
    | simp at h

/--
C8 counterexample to the original claim: on `c8bits` (count field = 1,
so two operating points) the parser panics; it does not return the
`Unsupported` outcome the spec promises, nor a plain failure.
-/
theorem parse_sequence_header_multi_op_counterexample :
    (parse_sequence_header c8bits).isPanicked = true ∧
      (parse_sequence_header c8bits).isUnsupported = false ∧
      (parse_sequence_header c8bits).isFail = false :=
  ⟨rfl, rfl, rfl⟩

/-- Witness for the C8 amended theorem at count field `10000` (17 points). -/
theorem parse_sequence_header_multi_op_amended_witness :
    parse_sequence_header
      (List.replicate 7 false ++ [true, false, false, false, false] ++ ([] : List Bool)) =
      .panicked :=
  parse_sequence_header_multi_op_amended true false false false false [] (Or.inl rfl)

end AV1
